import Mathlib

/-!
Verification of the inventory mutation plan validator, executor and rollback
engine (`consuming_manage.py`, `rollback_all.py`).

The embedding is shallow: the ledger is a list of rows, SQL numeric values are
rationals, timestamps are naturals, and Python dictionaries with optional keys
become structures of `Option` fields (an absent key is `none`; reading an
absent key raises `KeyError`, modelled by `Except.error`).  Console error /
warning prints are modelled by the `Diag` inductive; a raised Python exception
is `Except.error` carrying the exception text.
-/

namespace Inv

/-- A row of the `inventory` table.  `expiry_date` is `none` for SQL NULL;
dates and timestamps are modelled as naturals (only their order matters). -/
structure Row where
  id : Nat
  item_name : String
  category : String
  location : String
  quantity : ℚ
  unit : String
  expiry_date : Option Nat
  status : String
  parent_id : Option Nat
  created_at : Nat
  updated_at : Nat
deriving Repr, DecidableEq

abbrev Store := List Row

/-- One dictionary of the snapshot list built by `fetch_current_inventory`. -/
structure SnapItem where
  id : Nat
  name : String
  qty : ℚ
  unit : String
  loc : String
  exp : Option Nat
  created : Option Nat
deriving Repr, DecidableEq

/-- One action dictionary of a plan (the JSON wire format): every key other
than `action` may be absent. -/
structure Action where
  action : String
  id : Option Nat := none
  item_name : Option String := none
  category : Option String := none
  location : Option String := none
  quantity : Option ℚ := none
  unit : Option String := none
  expiry_date : Option Nat := none
  status : Option String := none
  parent_id : Option Nat := none
deriving Repr, DecidableEq

/-- Diagnostics printed by the validator and the executor. -/
inductive Diag where
  | degenerateSplit (parentId : Nat)
  | unitMismatch (parentId : Nat)
  | fractionalDiscrete (parentId : Nat)
  | childExceedsParent (parentId : Nat)
  | updateIncrease (itemId : Nat)
  | consumedNegative (itemId : Nat)
  | conservationViolation (parentId : Nat)
  | updateQuantityDropped (itemId : Nat)
  | updateNoFields (itemId : Nat)
deriving Repr, DecidableEq

/-- Validator state: the `has_errors` / `has_warnings` flags plus the
diagnostics printed so far. -/
structure VSt where
  hasErrors : Bool
  hasWarnings : Bool
  diags : List Diag
deriving Repr, DecidableEq

def initVSt : VSt := ⟨false, false, []⟩

/-- `next((item for item in inventory_snapshot if item['id'] == parent_id), None)`. -/
def findSnap (snap : List SnapItem) (p : Nat) : Option SnapItem :=
  snap.find? (fun it => it.id == p)

/-- `discrete_units = ['颗', '个', 'pack', '片', '块', '条', '根']`. -/
def discreteUnits : List String := ["颗", "个", "pack", "片", "块", "条", "根"]

/-- Rational addition, written through `mkRat` so that concrete values
evaluate (`Rat.add` itself is irreducible); `radd_eq` identifies it with
`+`. -/
def radd (a b : ℚ) : ℚ := mkRat (a.num * b.den + b.num * a.den) (a.den * b.den)

/-- Rational subtraction through `mkRat`; `rsub_eq` identifies it with `-`. -/
def rsub (a b : ℚ) : ℚ := mkRat (a.num * b.den - b.num * a.den) (a.den * b.den)

theorem radd_eq (a b : ℚ) : radd a b = a + b := (Rat.add_def' a b).symm

theorem rsub_eq (a b : ℚ) : rsub a b = a - b := (Rat.sub_def' a b).symm

/-- Python's `sum`: left fold of addition starting from zero. -/
def rsum (l : List ℚ) : ℚ := l.foldl radd 0

theorem rsum_eq (l : List ℚ) : rsum l = l.sum := by
  have key : ∀ (l : List ℚ) (a : ℚ), l.foldl radd a = a + l.sum := by
    intro l
    induction l with
    | nil => intro a; simp
    | cons q l ih =>
      intro a
      rw [List.foldl_cons, ih, radd_eq, List.sum_cons, add_assoc]
  unfold rsum
  rw [key, zero_add]

/-- Python's `abs`, written so that it evaluates. -/
def ratAbs (x : ℚ) : ℚ := if x < 0 then -x else x

theorem ratAbs_eq_abs (x : ℚ) : ratAbs x = |x| := by
  unfold ratAbs
  rcases lt_or_ge x 0 with h | h
  · rw [if_pos h, abs_of_neg h]
  · rw [if_neg (not_lt.mpr h), abs_of_nonneg h]

/-- The tolerance `epsilon = 0.01`, as an evaluating rational. -/
def epsilon : ℚ := mkRat 1 100

theorem epsilon_eq : epsilon = 1/100 := by
  unfold epsilon
  rw [Rat.mkRat_eq_div]
  norm_num

/-- Validation of one child `INSERT` (an `INSERT` whose dictionary has a
`parent_id` key with value `p`): reads `quantity` and `unit` (KeyError if
absent), looks the parent up in the snapshot and, if found, runs the
degenerate-split, unit-mismatch, discrete-fraction and oversize-child checks. -/
def checkInsert (snap : List SnapItem) (st : VSt) (a : Action) (p : Nat) :
    Except String VSt :=
  match a.quantity with
  | none => .error "KeyError: quantity"
  | some q =>
    match a.unit with
    | none => .error "KeyError: unit"
    | some u =>
      match findSnap snap p with
      | none => .ok st
      | some parent =>
        if q ≤ epsilon then
          .ok { st with hasErrors := true, diags := st.diags ++ [.degenerateSplit p] }
        else
          let st₁ := if u ≠ parent.unit then
              { st with hasErrors := true, diags := st.diags ++ [.unitMismatch p] }
            else st
          let st₂ := if discreteUnits.contains u ∧ q.den ≠ 1 then
              { st₁ with hasErrors := true, diags := st₁.diags ++ [.fractionalDiscrete p] }
            else st₁
          let st₃ := if q > parent.qty then
              { st₂ with hasWarnings := true, diags := st₂.diags ++ [.childExceedsParent p] }
            else st₂
          .ok st₃

/-- Validation of an `UPDATE` that carries a `quantity` key: reads `id`
(KeyError if absent), looks the original up in the snapshot and, if found,
runs the increase / negative / negative-consumption chain.  A negative new
quantity raises `ValueError`. -/
def checkUpdate (snap : List SnapItem) (st : VSt) (a : Action) (newq : ℚ) :
    Except String VSt :=
  match a.id with
  | none => .error "KeyError: id"
  | some i =>
    match findSnap snap i with
    | none => .ok st
    | some orig =>
      if newq > orig.qty ∧ a.location = none then
        .ok { st with hasWarnings := true, diags := st.diags ++ [.updateIncrease i] }
      else if newq < 0 then
        .error "ValueError: negative quantity"
      else if rsub orig.qty newq < 0 then
        .ok { st with hasWarnings := true, diags := st.diags ++ [.consumedNegative i] }
      else .ok st

/-- The per-action body of the validator's first loop. -/
def checkAction (snap : List SnapItem) (st : VSt) (a : Action) : Except String VSt :=
  match (if a.action = "INSERT" then
           match a.parent_id with
           | some p => checkInsert snap st a p
           | none => Except.ok st
         else Except.ok st) with
  | .error e => .error e
  | .ok st₁ =>
    if a.action = "UPDATE" then
      match a.quantity with
      | some q => checkUpdate snap st₁ a q
      | none => .ok st₁
    else .ok st₁

/-- The validator's first loop over the plan. -/
def checkAll (snap : List SnapItem) : List Action → VSt → Except String VSt
  | [], st => .ok st
  | a :: l, st =>
    match checkAction snap st a with
    | .error e => .error e
    | .ok st' => checkAll snap l st'

/-- `parent_children_map[parent_id].append(quantity)` on an insertion-ordered
association list. -/
def addChild (m : List (Nat × List ℚ)) (p : Nat) (q : ℚ) : List (Nat × List ℚ) :=
  match m with
  | [] => [(p, [q])]
  | (k, qs) :: rest =>
    if k = p then (k, qs ++ [q]) :: rest else (k, qs) :: addChild rest p q

/-- Building `parent_children_map` over the plan; reading a missing
`quantity` key raises `KeyError`. -/
def buildMap : List Action → List (Nat × List ℚ) → Except String (List (Nat × List ℚ))
  | [], m => .ok m
  | a :: l, m =>
    if a.action = "INSERT" then
      match a.parent_id with
      | some p =>
        match a.quantity with
        | some q => buildMap l (addChild m p q)
        | none => .error "KeyError: quantity"
      | none => buildMap l m
    else buildMap l m

/-- The aggregate conservation check for one map entry: skipped when the
parent id is not in the snapshot, an error when the children sum deviates
from the parent quantity by more than epsilon = 0.01. -/
def conservStep (snap : List SnapItem) (st : VSt) (e : Nat × List ℚ) : VSt :=
  match findSnap snap e.1 with
  | none => st
  | some parent =>
    if ratAbs (rsub (rsum e.2) parent.qty) > epsilon then
      { st with hasErrors := true, diags := st.diags ++ [.conservationViolation e.1] }
    else st

/-- The validator's second loop over `parent_children_map`. -/
def conservAll (snap : List SnapItem) : List (Nat × List ℚ) → VSt → VSt
  | [], st => st
  | e :: m, st => conservAll snap m (conservStep snap st e)

/-- The whole validation layer of `execute_actions` (it only runs when the
snapshot is non-empty).  `Except.error` models an uncaught Python exception. -/
def validate (snap : List SnapItem) (actions : List Action) : Except String VSt :=
  match checkAll snap actions initVSt with
  | .error e => .error e
  | .ok st =>
    match buildMap actions [] with
    | .error e => .error e
    | .ok m => .ok (conservAll snap m st)

/-! ## Executor (the try-block of `execute_actions`) -/

/-- The four values admitted by the `inventory_status_check` CHECK constraint
(`migrate_add_parent_tracking.py`). -/
def validStatus : List String := ["in_stock", "consumed", "processed", "waste"]

/-- Serial primary key assignment: one more than the largest id in the table. -/
def nextId (s : Store) : Nat := (s.foldl (fun m r => max m r.id) 0) + 1

/-- The dynamic `UPDATE inventory SET ...` applied to one row: only the
supplied fields plus `updated_at`; `quantity` is never among them. -/
def updRow (a : Action) (now : Nat) (i : Nat) (r : Row) : Row :=
  if r.id = i then
    { r with location := a.location.getD r.location,
             status := a.status.getD r.status,
             expiry_date := match a.expiry_date with
               | some e => some e
               | none => r.expiry_date,
             updated_at := now }
  else r

/-- Executor branch for `UPDATE`: a present `quantity` key is dropped with a
warning (reading `id` for the warning text, KeyError if absent); an update
with no updatable field is skipped with a warning; otherwise the SQL UPDATE
runs (rejected by the status CHECK constraint when it would write an invalid
status to at least one row). -/
def applyUpdate (now : Nat) (s : Store) (ws : List Diag) (a : Action) :
    Except String (Store × List Diag) :=
  match (match a.quantity, a.id with
         | some _, some i => Except.ok (ws ++ [Diag.updateQuantityDropped i])
         | some _, none => Except.error "KeyError: id"
         | none, _ => Except.ok ws) with
  | .error e => .error e
  | .ok ws₁ =>
    if a.location.isSome || a.status.isSome || a.expiry_date.isSome then
      match a.id with
      | none => .error "KeyError: id"
      | some i =>
        if (match a.status with
            | some stv => !validStatus.contains stv && s.any (fun r => r.id == i)
            | none => false) then
          .error "CheckViolation: status"
        else
          .ok (s.map (updRow a now i), ws₁)
    else
      match a.id with
      | none => .error "KeyError: id"
      | some i => .ok (s, ws₁ ++ [Diag.updateNoFields i])

/-- Executor branch for a child `INSERT` (truthy `parent_id` = `p`): expiry
inherited from the snapshot parent when absent, category defaulting to
`uncategorized`, location to `fridge`, status to `in_stock`; the insert is
rejected by the foreign key when `p` is not an existing row id, and by the
status CHECK constraint on an invalid status. -/
def applyInsertChild (snap : List SnapItem) (now : Nat) (s : Store) (a : Action)
    (p : Nat) : Except String Store :=
  match a.item_name, a.quantity, a.unit with
  | some nm, some q, some u =>
    let exp := match a.expiry_date with
      | some e => some e
      | none =>
        if snap ≠ [] then
          match findSnap snap p with
          | some parent => parent.exp
          | none => none
        else none
    let stv := a.status.getD "in_stock"
    if validStatus.contains stv then
      if s.any (fun r => r.id == p) then
        .ok (s ++ [{ id := nextId s, item_name := nm,
                     category := a.category.getD "uncategorized",
                     location := a.location.getD "fridge", quantity := q, unit := u,
                     expiry_date := exp, status := stv, parent_id := some p,
                     created_at := now, updated_at := now }])
      else .error "ForeignKeyViolation: parent_id"
    else .error "CheckViolation: status"
  | none, _, _ => .error "KeyError: item_name"
  | _, none, _ => .error "KeyError: quantity"
  | _, _, none => .error "KeyError: unit"

/-- Executor branch for a parentless `INSERT`: `item_name`, `location`,
`quantity`, `unit` and `expiry_date` are read with `[]` (KeyError if absent);
status is hardcoded to `in_stock`. -/
def applyInsertRoot (now : Nat) (s : Store) (a : Action) : Except String Store :=
  match a.item_name, a.location, a.quantity, a.unit with
  | some nm, some loc, some q, some u =>
    match a.expiry_date with
    | some e =>
      .ok (s ++ [{ id := nextId s, item_name := nm,
                   category := a.category.getD "uncategorized",
                   location := loc, quantity := q, unit := u,
                   expiry_date := some e, status := "in_stock", parent_id := none,
                   created_at := now, updated_at := now }])
    | none => .error "KeyError: expiry_date"
  | none, _, _, _ => .error "KeyError: item_name"
  | _, none, _, _ => .error "KeyError: location"
  | _, _, none, _ => .error "KeyError: quantity"
  | _, _, _, none => .error "KeyError: unit"

/-- `MARK_PROCESSED` / `MARK_WASTE` / `CONSUME_LOG`: when the `id` key is
present, set `status` and refresh `updated_at` on the matching rows; with no
`id` key the action is silently skipped. -/
def applyMark (stv : String) (now : Nat) (s : Store) (a : Action) : Store :=
  match a.id with
  | some i => s.map (fun r => if r.id = i then
      { r with status := stv, updated_at := now } else r)
  | none => s

/-- One iteration of the executor loop. -/
def applyAction (snap : List SnapItem) (now : Nat) (st : Store × List Diag)
    (a : Action) : Except String (Store × List Diag) :=
  if a.action = "UPDATE" then applyUpdate now st.1 st.2 a
  else if a.action = "INSERT" then
    (match a.parent_id with
     | some p =>
       if p ≠ 0 then applyInsertChild snap now st.1 a p else applyInsertRoot now st.1 a
     | none => applyInsertRoot now st.1 a).map (fun s' => (s', st.2))
  else if a.action = "MARK_PROCESSED" then .ok (applyMark "processed" now st.1 a, st.2)
  else if a.action = "MARK_WASTE" then .ok (applyMark "waste" now st.1 a, st.2)
  else if a.action = "CONSUME_LOG" then .ok (applyMark "consumed" now st.1 a, st.2)
  else .ok st

/-- The executor loop over the whole plan inside the transaction: the first
failing action aborts the remainder. -/
def applyAll (snap : List SnapItem) (now : Nat) :
    List Action → Store × List Diag → Except String (Store × List Diag)
  | [], st => .ok st
  | a :: l, st =>
    match applyAction snap now st a with
    | .error e => .error e
    | .ok st' => applyAll snap now l st'

/-- How a call of `execute_actions` ended. -/
inductive Outcome where
  | committed
  | rejected
  | validationException
  | rolledBack
deriving Repr, DecidableEq

/-- The whole of `execute_actions(actions, inventory_snapshot)` against store
`s` at time `now`: validation (only when the snapshot is truthy) either
raises, rejects on `has_errors`, or falls through to the transaction, which
commits all actions or rolls back to the unchanged store. -/
def execute_actions (actions : List Action) (snap : List SnapItem) (s : Store)
    (now : Nat) : Store × List Diag × Outcome :=
  if snap ≠ [] then
    match validate snap actions with
    | .error _ => (s, [], .validationException)
    | .ok vst =>
      if vst.hasErrors then (s, [], .rejected)
      else
        match applyAll snap now actions (s, []) with
        | .ok (s', ws) => (s', ws, .committed)
        | .error _ => (s, [], .rolledBack)
  else
    match applyAll snap now actions (s, []) with
    | .ok (s', ws) => (s', ws, .committed)
    | .error _ => (s, [], .rolledBack)

/-! ## Snapshot Reader (`fetch_current_inventory`) -/

/-- Sort key of `ORDER BY expiry_date ASC NULLS LAST, created_at ASC`:
rows with a date rank before NULL rows, then date, then creation time. -/
def fetchKey (r : Row) : Nat × Nat × Nat :=
  match r.expiry_date with
  | some e => (0, e, r.created_at)
  | none => (1, 0, r.created_at)

/-- Lexicographic comparison of triples of naturals. -/
def tripleLE (x y : Nat × Nat × Nat) : Prop :=
  x.1 < y.1 ∨ (x.1 = y.1 ∧ (x.2.1 < y.2.1 ∨ (x.2.1 = y.2.1 ∧ x.2.2 ≤ y.2.2)))

instance (x y : Nat × Nat × Nat) : Decidable (tripleLE x y) := by
  unfold tripleLE; infer_instance

/-- The row order produced by the Snapshot Reader's query. -/
def fetchLE (a b : Row) : Prop := tripleLE (fetchKey a) (fetchKey b)

instance : DecidableRel fetchLE := fun a b => by unfold fetchLE; infer_instance

instance : IsTotal Row fetchLE := by
  constructor; intro a b; unfold fetchLE tripleLE; omega

instance : IsTrans Row fetchLE := by
  constructor; intro a b c hab hbc; unfold fetchLE tripleLE at *; omega

/-- SQL `UPPER`: uppercase the string character by character. -/
def strUpper (s : String) : String := ⟨s.data.map Char.toUpper⟩

/-- The rows selected and ordered by the Snapshot Reader:
`WHERE UPPER(status) = 'IN_STOCK' ORDER BY expiry_date ASC NULLS LAST,
created_at ASC`. -/
def fetchRows (s : Store) : List Row :=
  List.insertionSort fetchLE (s.filter (fun r => strUpper r.status == "IN_STOCK"))

/-- The dictionary built for each selected row. -/
def rowToSnap (r : Row) : SnapItem :=
  { id := r.id, name := r.item_name, qty := r.quantity, unit := r.unit,
    loc := r.location, exp := r.expiry_date, created := some r.created_at }

def fetch_current_inventory (s : Store) : List SnapItem :=
  (fetchRows s).map rowToSnap

/-! ## Rollback Engine (`rollback_all.py`) -/

/-- One tuple returned by `find_items_to_rollback` (the display-only
`recent_children` count is omitted). -/
structure Candidate where
  id : Nat
  item_name : String
  quantity : ℚ
  unit : String
  status : String
  created_at : Nat
  updated_at : Nat
  lastActivity : Option Nat
  parent_id : Option Nat
  totalChildren : Nat
deriving Repr, DecidableEq

/-- `SELECT COUNT(*) FROM inventory WHERE parent_id = pid`. -/
def countChildren (s : Store) (pid : Nat) : Nat :=
  (s.filter (fun r => r.parent_id == some pid)).length

/-- `MAX(GREATEST(child.created_at, child.updated_at))` over the direct
children, `none` when there are none. -/
def childActivity (s : Store) (pid : Nat) : Option Nat :=
  (s.filterMap (fun c => if c.parent_id == some pid then
      some (max c.created_at c.updated_at) else none)).max?

/-- `GREATEST(p.updated_at, COALESCE(child activity, p.updated_at))`. -/
def lastActivityTime (s : Store) (r : Row) : Nat :=
  max r.updated_at ((childActivity s r.id).getD r.updated_at)

/-- The time-window disjunction of the non-LIMIT query: the item itself was
updated since the cutoff, or it has a child created since the cutoff. -/
def windowCond (c : Nat) (s : Store) (r : Row) : Bool :=
  decide (c ≤ r.updated_at) ||
    s.any (fun ch => ch.parent_id == some r.id && decide (c ≤ ch.created_at))

/-- The selection window: `--all`, `--last=N`, or a date cutoff (covering
both `--days=N` and the current-day default, which differ only in the cutoff
value). Exactly one mode is active per invocation. -/
inductive Window where
  | allItems
  | lastN (n : Nat)
  | sinceCutoff (cutoff : Nat)
deriving Repr, DecidableEq

/-- `ORDER BY p.updated_at DESC, p.id DESC`. -/
def updDescLE (a b : Row) : Prop :=
  b.updated_at < a.updated_at ∨ (b.updated_at = a.updated_at ∧ b.id ≤ a.id)

instance : DecidableRel updDescLE := fun a b => by unfold updDescLE; infer_instance

/-- `ORDER BY last_activity_time DESC, id DESC`. -/
def actDescLE (s : Store) (a b : Row) : Prop :=
  lastActivityTime s b < lastActivityTime s a ∨
    (lastActivityTime s b = lastActivityTime s a ∧ b.id ≤ a.id)

instance (s : Store) : DecidableRel (actDescLE s) := fun a b => by
  unfold actDescLE; infer_instance

/-- The tuple assembled for one selected row (`last_activity_time` is NULL
outside the `--last` mode; `total_children` is counted per candidate). -/
def toCandidate (s : Store) (la : Option Nat) (r : Row) : Candidate :=
  { id := r.id, item_name := r.item_name, quantity := r.quantity, unit := r.unit,
    status := r.status, created_at := r.created_at, updated_at := r.updated_at,
    lastActivity := la, parent_id := r.parent_id,
    totalChildren := countChildren s r.id }

/-- `find_items_to_rollback`: candidates are the `status = 'processed'` rows,
restricted by the active window, ordered by the query's ORDER BY. -/
def find_items_to_rollback (s : Store) (w : Window) : List Candidate :=
  match w with
  | .allItems =>
    (List.insertionSort updDescLE (s.filter (fun r => r.status == "processed"))).map
      (toCandidate s none)
  | .sinceCutoff c =>
    (List.insertionSort updDescLE
        (s.filter (fun r => r.status == "processed" && windowCond c s r))).map
      (toCandidate s none)
  | .lastN n =>
    ((List.insertionSort (actDescLE s)
        (s.filter (fun r => r.status == "processed"))).take n).map
      (fun r => toCandidate s (some (lastActivityTime s r)) r)

/-- `UPDATE inventory SET status='in_stock' WHERE id = ...` applied to a row
(note: `updated_at` is not refreshed here). -/
def setInStock (r : Row) : Row := { r with status := "in_stock" }

/-- One iteration of `execute_rollback`: delete every direct child of the
candidate (guarded by the fetched `total_children` count), then restore the
candidate's status. -/
def rollbackStep (s : Store) (c : Candidate) : Store :=
  (if 0 < c.totalChildren then s.filter (fun r => !(r.parent_id == some c.id)) else s).map
    (fun r => if r.id = c.id then setInStock r else r)

/-- `execute_rollback(items)`: the loop over all selected candidates, in one
transaction. -/
def execute_rollback : Store → List Candidate → Store
  | s, [] => s
  | s, c :: cs => execute_rollback (rollbackStep s c) cs

/-- One whole rollback invocation: find the candidates, then roll them back. -/
def rollbackRun (s : Store) (w : Window) : Store :=
  execute_rollback s (find_items_to_rollback s w)

/-! ## Concrete fixtures used by witnesses and counterexamples -/

/-- Row constructor with the descriptive fields defaulted. -/
def mkRow (i : Nat) (nm : String) (q : ℚ) (u : String) (st : String)
    (pid : Option Nat) (exp : Option Nat) (cr upd : Nat) : Row :=
  { id := i, item_name := nm, category := "uncategorized", location := "fridge",
    quantity := q, unit := u, expiry_date := exp, status := st, parent_id := pid,
    created_at := cr, updated_at := upd }

/-- An in-stock 1000 g root item. -/
def rowMilk : Row := mkRow 1 "milk" 1000 "g" "in_stock" none (some 50) 10 10

/-- A later-created item with a sooner expiry than `rowMilk`. -/
def rowYog : Row := mkRow 2 "yog" 500 "g" "in_stock" none (some 40) 20 20

/-- The snapshot of a store holding only `rowMilk`. -/
def snapMilk : List SnapItem := fetch_current_inventory [rowMilk]

/-! ## C2 -/

/-- All-or-nothing characterization of `execute_actions`, shared by several
claims below. -/
theorem execute_actions_atomic (actions : List Action) (snap : List SnapItem)
    (s : Store) (now : Nat) :
    ((execute_actions actions snap s now).2.2 = Outcome.committed →
      applyAll snap now actions (s, []) =
        .ok ((execute_actions actions snap s now).1,
             (execute_actions actions snap s now).2.1)) ∧
    ((execute_actions actions snap s now).2.2 ≠ Outcome.committed →
      (execute_actions actions snap s now).1 = s) := by
  unfold execute_actions
  by_cases hs : snap ≠ []
  · simp only [if_pos hs]
    cases hv : validate snap actions with
    | error e => simp
    | ok vst =>
      by_cases he : vst.hasErrors
      · simp [he]
      · simp only [he, if_neg, Bool.false_eq_true, if_false]
        cases ha : applyAll snap now actions (s, []) with
        | ok p => cases p with | mk s' ws => simp
        | error e => simp
  · simp only [if_neg hs]
    cases ha : applyAll snap now actions (s, []) with
    | ok p => cases p with | mk s' ws => simp
    | error e => simp

/-- C2: for every accepted plan all actions are applied inside one
transaction: when `execute_actions` commits, the resulting store is exactly
the sequential application of every action of the plan (`applyAll`), and on
any other outcome — validation exception, rejection, or a runtime failure
rolling the transaction back — the store is left exactly as it was: either
every action commits or none does. -/
theorem C2_executor_atomicity (actions : List Action) (snap : List SnapItem)
    (s : Store) (now : Nat) :
    ((execute_actions actions snap s now).2.2 = Outcome.committed →
      applyAll snap now actions (s, []) =
        .ok ((execute_actions actions snap s now).1,
             (execute_actions actions snap s now).2.1)) ∧
    ((execute_actions actions snap s now).2.2 ≠ Outcome.committed →
      (execute_actions actions snap s now).1 = s) :=
  execute_actions_atomic actions snap s now

/-- Witness for C2 at a concrete committed run: a `CONSUME_LOG` plan against
the one-item store commits and the result is the full application. -/
theorem C2_executor_atomicity_witness :
    applyAll snapMilk 99 [{ action := "CONSUME_LOG", id := some 1 }] ([rowMilk], []) =
      .ok ((execute_actions [{ action := "CONSUME_LOG", id := some 1 }] snapMilk [rowMilk] 99).1,
           (execute_actions [{ action := "CONSUME_LOG", id := some 1 }] snapMilk [rowMilk] 99).2.1) :=
  (C2_executor_atomicity [{ action := "CONSUME_LOG", id := some 1 }] snapMilk [rowMilk] 99).1
    (by decide)

/-! ## C3 -/

/-- Modelled from the claim's words (for refutation only): primary key
creation time ascending, ties broken by the expiry key. -/
def specC3LE (a b : Row) : Prop :=
  a.created_at < b.created_at ∨
    (a.created_at = b.created_at ∧ tripleLE (fetchKey a) (fetchKey b))

instance : DecidableRel specC3LE := fun a b => by
  unfold specC3LE tripleLE; infer_instance

/-- Counterexample to C3 as stated: two in-stock rows where `rowMilk` was
created first (time 10) but expires later (50) than `rowYog` (created 20,
expires 40).  The Snapshot Reader returns `rowYog` first, so the output is
not ordered by creation time as the primary key. -/
theorem C3_counterexample :
    (fetchRows [rowMilk, rowYog]).map Row.id = [2, 1] ∧
      ¬ List.Sorted specC3LE (fetchRows [rowMilk, rowYog]) := by
  constructor
  · decide
  · intro h
    have : specC3LE rowYog rowMilk := by
      have he : fetchRows [rowMilk, rowYog] = [rowYog, rowMilk] := by decide
      rw [he, List.sorted_cons] at h
      exact h.1 rowMilk (by simp)
    revert this; decide

/-- C3 amended: the Snapshot Reader returns exactly the items whose status is
`in_stock` (case-insensitively), but ordered with EXPIRY date ascending
(NULLS LAST) as the primary key, ties broken by creation time ascending —
the priority of the two keys is the reverse of the claim's. -/
theorem C3_snapshot_reader_order (s : Store) :
    List.Sorted fetchLE (fetchRows s) ∧
      (fetchRows s).Perm (s.filter (fun r => strUpper r.status == "IN_STOCK")) ∧
      fetch_current_inventory s = (fetchRows s).map rowToSnap :=
  ⟨List.sorted_insertionSort fetchLE _,
   List.perm_insertionSort fetchLE _,
   rfl⟩

/-! ## Rollback engine lemmas -/

theorem setInStock_idem (r : Row) : setInStock (setInStock r) = setInStock r := rfl

/-- Every row surviving one rollback iteration is an original row, unchanged
except possibly for its status being reset. -/
theorem rollbackStep_provenance (s : Store) (c : Candidate) :
    ∀ r' ∈ rollbackStep s c, ∃ r ∈ s, r' = r ∨ r' = setInStock r := by
  intro r' h
  unfold rollbackStep at h
  rw [List.mem_map] at h
  obtain ⟨r, hr, he⟩ := h
  have hrs : r ∈ s := by
    by_cases hc : 0 < c.totalChildren
    · rw [if_pos hc] at hr; exact List.mem_of_mem_filter hr
    · rw [if_neg hc] at hr; exact hr
  refine ⟨r, hrs, ?_⟩
  by_cases hid : r.id = c.id
  · right; rw [← he]; simp [hid]
  · left; rw [← he]; simp [hid]

/-- Every row surviving a whole rollback is an original row, unchanged except
possibly for its status being reset to `in_stock`. -/
theorem execute_rollback_provenance (cs : List Candidate) (s : Store) :
    ∀ r' ∈ execute_rollback s cs, ∃ r ∈ s, r' = r ∨ r' = setInStock r := by
  induction cs generalizing s with
  | nil => intro r' h; exact ⟨r', h, Or.inl rfl⟩
  | cons c cs ih =>
    intro r' h
    obtain ⟨r₁, hr₁, hcase₁⟩ := ih (rollbackStep s c) r' h
    obtain ⟨r₀, hr₀, hcase₀⟩ := rollbackStep_provenance s c r₁ hr₁
    refine ⟨r₀, hr₀, ?_⟩
    rcases hcase₁ with h1 | h1 <;> rcases hcase₀ with h0 | h0 <;>
      simp [h1, h0, setInStock_idem]

/-- Once every row with a given id is `in_stock`, further rollback
iterations keep it so. -/
theorem execute_rollback_keeps_inStock (cid : Nat) (cs : List Candidate) (s : Store)
    (h : ∀ r ∈ s, r.id = cid → r.status = "in_stock") :
    ∀ r' ∈ execute_rollback s cs, r'.id = cid → r'.status = "in_stock" := by
  induction cs generalizing s with
  | nil => exact h
  | cons c cs ih =>
    refine ih (rollbackStep s c) ?_
    intro r₁ h₁ hid₁
    unfold rollbackStep at h₁
    rw [List.mem_map] at h₁
    obtain ⟨r, hr, he⟩ := h₁
    have hrs : r ∈ s := by
      by_cases hc : 0 < c.totalChildren
      · rw [if_pos hc] at hr; exact List.mem_of_mem_filter hr
      · rw [if_neg hc] at hr; exact hr
    by_cases hid : r.id = c.id
    · rw [← he] at *; simp [hid, setInStock]
    · rw [← he] at hid₁ ⊢; simp only [if_neg hid] at hid₁ ⊢
      exact h r hrs hid₁

/-- A selected candidate's id ends the rollback with status `in_stock` on
every row that carries it (provided the row survives at all). -/
theorem execute_rollback_restores (cs : List Candidate) (c : Candidate)
    (hc : c ∈ cs) (s : Store) :
    ∀ r' ∈ execute_rollback s cs, r'.id = c.id → r'.status = "in_stock" := by
  induction cs generalizing s with
  | nil => cases hc
  | cons d cs ih =>
    rcases List.mem_cons.mp hc with h | h
    · subst h
      refine execute_rollback_keeps_inStock c.id cs (rollbackStep s c) ?_
      intro r₁ h₁ hid₁
      unfold rollbackStep at h₁
      rw [List.mem_map] at h₁
      obtain ⟨r, hr, he⟩ := h₁
      by_cases hid : r.id = c.id
      · rw [← he]; simp [hid, setInStock]
      · rw [← he] at hid₁; simp only [if_neg hid] at hid₁; exact absurd hid₁ hid
    · exact ih h (rollbackStep s d)

/-- `execute_rollback` over an appended candidate list runs in sequence. -/
theorem execute_rollback_append (l₁ l₂ : List Candidate) (s : Store) :
    execute_rollback s (l₁ ++ l₂) = execute_rollback (execute_rollback s l₁) l₂ := by
  induction l₁ generalizing s with
  | nil => rfl
  | cons c l₁ ih =>
    show execute_rollback (rollbackStep s c) (l₁ ++ l₂) = _
    rw [ih]
    rfl

/-- If no row of the store is a child of `pid`, the same holds after any
rollback (no iteration creates rows or rewrites `parent_id`). -/
theorem execute_rollback_keeps_noChild (pid : Nat) (cs : List Candidate) (s : Store)
    (h : ∀ r ∈ s, r.parent_id ≠ some pid) :
    ∀ r' ∈ execute_rollback s cs, r'.parent_id ≠ some pid := by
  intro r' h'
  obtain ⟨r, hr, hcase⟩ := execute_rollback_provenance cs s r' h'
  rcases hcase with h1 | h1 <;> · rw [h1]; exact h r hr

/-- After the iteration of a candidate whose fetched child count matches the
store, no surviving row is a direct child of that candidate. -/
theorem rollbackStep_clears_children (s₀ s : Store) (c : Candidate)
    (hacc : c.totalChildren = countChildren s₀ c.id)
    (hsub : ∀ r ∈ s, ∃ r₀ ∈ s₀, r.parent_id = r₀.parent_id) :
    ∀ r' ∈ rollbackStep s c, r'.parent_id ≠ some c.id := by
  intro r' h'
  unfold rollbackStep at h'
  rw [List.mem_map] at h'
  obtain ⟨r, hr, he⟩ := h'
  have hpe : r'.parent_id = r.parent_id := by
    rw [← he]; by_cases hid : r.id = c.id <;> simp [hid, setInStock]
  rw [hpe]
  by_cases hcnt : 0 < c.totalChildren
  · rw [if_pos hcnt] at hr
    have := List.of_mem_filter hr
    simpa using this
  · rw [if_neg hcnt] at hr
    obtain ⟨r₀, hr₀, hp₀⟩ := hsub r hr
    rw [hp₀]
    intro hcon
    have : countChildren s₀ c.id ≠ 0 := by
      unfold countChildren
      intro hz
      rw [List.length_eq_zero, List.filter_eq_nil_iff] at hz
      exact hz r₀ hr₀ (by simp [hcon])
    omega

/-- Children deletion: after the whole rollback, a candidate whose fetched
child count was accurate has no direct children left in the store. -/
theorem execute_rollback_no_children (cs : List Candidate) (c : Candidate)
    (hc : c ∈ cs) (s : Store)
    (hacc : c.totalChildren = countChildren s c.id) :
    ∀ r' ∈ execute_rollback s cs, r'.parent_id ≠ some c.id := by
  obtain ⟨l₁, l₂, rfl⟩ := List.append_of_mem hc
  rw [execute_rollback_append]
  show ∀ r' ∈ execute_rollback (execute_rollback s l₁) (c :: l₂), _
  have hsub : ∀ r ∈ execute_rollback s l₁, ∃ r₀ ∈ s, r.parent_id = r₀.parent_id := by
    intro r hr
    obtain ⟨r₀, hr₀, hcase⟩ := execute_rollback_provenance l₁ s r hr
    exact ⟨r₀, hr₀, by rcases hcase with h1 | h1 <;> simp [h1, setInStock]⟩
  have hstep := rollbackStep_clears_children s (execute_rollback s l₁) c hacc hsub
  show ∀ r' ∈ execute_rollback (rollbackStep (execute_rollback s l₁) c) l₂, _
  exact execute_rollback_keeps_noChild c.id l₂ _ hstep

/-- Survival with a frame: a row that is no candidate's child survives the
whole rollback with id, quantity, parent, unit, name and timestamps intact. -/
theorem execute_rollback_survives (cs : List Candidate) (s : Store) (r : Row)
    (hr : r ∈ s) (hnp : ∀ c ∈ cs, r.parent_id ≠ some c.id) :
    ∃ r' ∈ execute_rollback s cs, r'.id = r.id ∧ r'.quantity = r.quantity ∧
      r'.parent_id = r.parent_id ∧ r'.unit = r.unit ∧
      r'.created_at = r.created_at ∧ r'.updated_at = r.updated_at := by
  induction cs generalizing s r with
  | nil => exact ⟨r, hr, rfl, rfl, rfl, rfl, rfl, rfl⟩
  | cons c cs ih =>
    have hfil : r ∈ (if 0 < c.totalChildren then
        s.filter (fun x => !(x.parent_id == some c.id)) else s) := by
      by_cases hcnt : 0 < c.totalChildren
      · rw [if_pos hcnt]
        refine List.mem_filter.mpr ⟨hr, ?_⟩
        have := hnp c (List.mem_cons_self c cs)
        simpa using this
      · rw [if_neg hcnt]; exact hr
    have h₁ : (if r.id = c.id then setInStock r else r) ∈ rollbackStep s c := by
      unfold rollbackStep
      exact List.mem_map.mpr ⟨r, hfil, rfl⟩
    have hfields : (if r.id = c.id then setInStock r else r).id = r.id ∧
        (if r.id = c.id then setInStock r else r).quantity = r.quantity ∧
        (if r.id = c.id then setInStock r else r).parent_id = r.parent_id ∧
        (if r.id = c.id then setInStock r else r).unit = r.unit ∧
        (if r.id = c.id then setInStock r else r).created_at = r.created_at ∧
        (if r.id = c.id then setInStock r else r).updated_at = r.updated_at := by
      by_cases hid : r.id = c.id <;> simp [hid, setInStock]
    obtain ⟨r', h', hid', hq', hp', hu', hc', hup'⟩ :=
      ih (rollbackStep s c) (if r.id = c.id then setInStock r else r) h₁
        (by intro c' hc'
            rw [hfields.2.2.1]
            exact hnp c' (List.mem_cons_of_mem c hc'))
    exact ⟨r', h', by rw [hid', hfields.1], by rw [hq', hfields.2.1],
           by rw [hp', hfields.2.2.1], by rw [hu', hfields.2.2.2.1],
           by rw [hc', hfields.2.2.2.2.1], by rw [hup', hfields.2.2.2.2.2]⟩

/-! ## C4 -/

/-- A store with a two-level split: root 1 is processed, its child 2 is
itself processed, and 2 has the in-stock child 3. -/
def storeNested : Store :=
  [mkRow 1 "beef" 1000 "g" "processed" none (some 50) 10 10,
   mkRow 2 "beef" 600 "g" "processed" (some 1) (some 50) 30 30,
   mkRow 3 "beef" 400 "g" "in_stock" (some 2) (some 50) 40 40]

/-- Counterexample to C4 as stated: in `storeNested` both row 1 and row 2 are
selected candidates (`status = processed`), yet after the rollback row 2 is
not restored to `in_stock` — it is gone entirely, deleted as a direct child
of candidate 1. -/
theorem C4_counterexample :
    ((find_items_to_rollback storeNested Window.allItems).any
        (fun c => c.id == 2 && c.status == "processed")) = true ∧
      ((execute_rollback storeNested
          (find_items_to_rollback storeNested Window.allItems)).all
        (fun r => !(r.id == 2))) = true := by
  constructor <;> decide

/-- C4 amended: for every selected candidate whose fetched child count is
accurate, rollback deletes all of its direct children regardless of the
children's own timestamps — unconditionally, including for a candidate that
is itself nested under another selected candidate; and every row carrying
the candidate's id that is not itself the direct child of another selected
candidate survives with status reset to `in_stock` and its quantity
untouched.  (A candidate that is a direct child of another selected
candidate is instead deleted by that candidate's child-deletion, as the
counterexample shows.) -/
theorem C4_rollback_candidate (items : List Candidate) (s : Store)
    (c : Candidate) (hc : c ∈ items)
    (hacc : c.totalChildren = countChildren s c.id) :
    (∀ r' ∈ execute_rollback s items, r'.parent_id ≠ some c.id) ∧
      ∀ r ∈ s, r.id = c.id → (∀ c' ∈ items, r.parent_id ≠ some c'.id) →
        ∃ r' ∈ execute_rollback s items, r'.id = r.id ∧ r'.status = "in_stock" ∧
          r'.quantity = r.quantity := by
  refine ⟨execute_rollback_no_children items c hc s hacc, ?_⟩
  intro r hr hid hnp
  obtain ⟨r', h', hid', hq', -, -, -, -⟩ := execute_rollback_survives items s r hr hnp
  exact ⟨r', h', hid',
    execute_rollback_restores items c hc s r' h' (by rw [hid', hid]), hq'⟩

/-- A store with one processed root (id 1) holding one child (id 2). -/
def storeOneSplit : Store :=
  [mkRow 1 "fish" 300 "g" "processed" none (some 50) 10 11,
   mkRow 2 "fish" 300 "g" "consumed" (some 1) (some 50) 12 12]

/-- The candidate tuple the rollback query fetches for row 1 of
`storeOneSplit`. -/
def candOne : Candidate := toCandidate storeOneSplit none (storeOneSplit.get ⟨0, by decide⟩)

/-- Witness for C4 at a concrete input: rolling back the single candidate of
`storeOneSplit` deletes its child and restores row 1 with its quantity. -/
theorem C4_rollback_candidate_witness :
    (∀ r' ∈ execute_rollback storeOneSplit [candOne], r'.parent_id ≠ some candOne.id) ∧
      ∀ r ∈ storeOneSplit, r.id = candOne.id →
        (∀ c' ∈ [candOne], r.parent_id ≠ some c'.id) →
        ∃ r' ∈ execute_rollback storeOneSplit [candOne], r'.id = r.id ∧
          r'.status = "in_stock" ∧ r'.quantity = r.quantity :=
  C4_rollback_candidate [candOne] storeOneSplit candOne (by decide) (by decide)

/-! ## C8 -/

/-- Rows selected by a time-filtered (non-LIMIT) window. -/
theorem find_mem_of_selected_all (s : Store) (r : Row) (hr : r ∈ s)
    (hst : r.status == "processed") :
    ∃ c ∈ find_items_to_rollback s Window.allItems, c.id = r.id := by
  have hf : r ∈ s.filter (fun x => x.status == "processed") :=
    List.mem_filter.mpr ⟨hr, hst⟩
  have hs : r ∈ List.insertionSort updDescLE
      (s.filter (fun x => x.status == "processed")) :=
    (List.perm_insertionSort updDescLE _).mem_iff.mpr hf
  exact ⟨toCandidate s none r, List.mem_map.mpr ⟨r, hs, rfl⟩, rfl⟩

/-- Rows selected by a cutoff window. -/
theorem find_mem_of_selected_cutoff (cut : Nat) (s : Store) (r : Row) (hr : r ∈ s)
    (hst : (r.status == "processed" && windowCond cut s r) = true) :
    ∃ c ∈ find_items_to_rollback s (Window.sinceCutoff cut), c.id = r.id := by
  have hf : r ∈ s.filter (fun x => x.status == "processed" && windowCond cut s x) :=
    List.mem_filter.mpr ⟨hr, hst⟩
  have hs : r ∈ List.insertionSort updDescLE
      (s.filter (fun x => x.status == "processed" && windowCond cut s x)) :=
    (List.perm_insertionSort updDescLE _).mem_iff.mpr hf
  exact ⟨toCandidate s none r, List.mem_map.mpr ⟨r, hs, rfl⟩, rfl⟩

/-- After a full rollback under a non-LIMIT window no surviving row is still
`processed` and inside the window. -/
theorem rollbackRun_no_candidate_left (s : Store) (w : Window)
    (hw : w = Window.allItems ∨ ∃ cut, w = Window.sinceCutoff cut) :
    ∀ r' ∈ rollbackRun s w, r'.status = "processed" →
      (∀ cut, w = Window.sinceCutoff cut → windowCond cut (rollbackRun s w) r' = false) ∧
        w ≠ Window.allItems := by
  intro r' h' hst
  obtain ⟨r, hr, hcase⟩ := execute_rollback_provenance _ s r' h'
  have hrr : r' = r := by
    rcases hcase with h1 | h1
    · exact h1
    · exfalso; rw [h1] at hst; simp [setInStock] at hst
  subst hrr
  -- r was not selected: otherwise its status would have been restored
  have hnotsel : ∀ c ∈ find_items_to_rollback s w, c.id ≠ r'.id := by
    intro c hcmem hceq
    have := execute_rollback_restores _ c hcmem s r' h' hceq.symm
    rw [hst] at this; exact absurd this (by decide)
  constructor
  · intro cut hwc
    subst hwc
    cases hb : windowCond cut s r' with
    | true =>
      exfalso
      obtain ⟨c, hcmem, hcid⟩ :=
        find_mem_of_selected_cutoff cut s r' hr (by simp [hst, hb])
      exact hnotsel c hcmem hcid
    | false =>
      unfold windowCond at hb ⊢
      rw [Bool.or_eq_false_iff] at hb
      rw [Bool.or_eq_false_iff]
      refine ⟨hb.1, ?_⟩
      cases hb2 : List.any (rollbackRun s (Window.sinceCutoff cut))
          (fun ch => ch.parent_id == some r'.id && decide (cut ≤ ch.created_at)) with
      | false => rfl
      | true =>
        exfalso
        rw [List.any_eq_true] at hb2
        obtain ⟨ch', hch', hcond⟩ := hb2
        obtain ⟨ch, hch, hchc⟩ := execute_rollback_provenance _ s ch' hch'
        have hpe : ch'.parent_id = ch.parent_id ∧ ch'.created_at = ch.created_at := by
          rcases hchc with h1 | h1 <;> simp [h1, setInStock]
        have hany : (s.any fun x =>
            x.parent_id == some r'.id && decide (cut ≤ x.created_at)) = true :=
          List.any_eq_true.mpr ⟨ch, hch, by rw [← hpe.1, ← hpe.2]; exact hcond⟩
        rw [hany] at hb
        exact absurd hb.2 (by decide)
  · intro hwa
    subst hwa
    obtain ⟨c, hcmem, hcid⟩ := find_mem_of_selected_all s r' hr (by simp [hst])
    exact absurd hcid (hnotsel c hcmem)

/-- A store holding two processed items and nothing else. -/
def storeTwoProc : Store :=
  [mkRow 1 "rice" 10 "kg" "processed" none none 5 10,
   mkRow 2 "oats" 20 "kg" "processed" none none 6 20]

/-- Counterexample to C8 as stated: under the `--last=1` selection window the
second invocation is not a no-op — the first invocation restores only the
most recently active candidate, so the second selects (and rolls back) the
next one, changing the ledger again. -/
theorem C8_counterexample :
    find_items_to_rollback (rollbackRun storeTwoProc (Window.lastN 1))
        (Window.lastN 1) ≠ [] ∧
      rollbackRun (rollbackRun storeTwoProc (Window.lastN 1)) (Window.lastN 1) ≠
        rollbackRun storeTwoProc (Window.lastN 1) := by
  constructor <;> decide

/-- C8 amended: rollback is idempotent for the unconditional and the
time-cutoff selection windows (`--all`, `--days=N`, and the current-day
default): after one invocation the second one selects zero candidates —
every restored item is `in_stock` and no longer satisfies the
`status = processed` condition — and leaves the ledger unchanged.  The
fixed-count window `--last=N` does not have this property. -/
theorem C8_rollback_idempotent (s : Store) (w : Window)
    (hw : w = Window.allItems ∨ ∃ cut, w = Window.sinceCutoff cut) :
    find_items_to_rollback (rollbackRun s w) w = [] ∧
      rollbackRun (rollbackRun s w) w = rollbackRun s w := by
  have hfe : find_items_to_rollback (rollbackRun s w) w = [] := by
    rcases hw with hwa | ⟨cut, hwc⟩
    · subst hwa
      have hfil : (rollbackRun s Window.allItems).filter
          (fun r => r.status == "processed") = [] := by
        rw [List.filter_eq_nil_iff]
        intro r' h' hp
        have hst : r'.status = "processed" := by simpa using hp
        exact (rollbackRun_no_candidate_left s _ (Or.inl rfl) r' h' hst).2 rfl
      show (List.insertionSort updDescLE ((rollbackRun s Window.allItems).filter
          (fun r => r.status == "processed"))).map (toCandidate _ none) = []
      rw [hfil]; rfl
    · subst hwc
      have hfil : (rollbackRun s (Window.sinceCutoff cut)).filter
          (fun r => r.status == "processed" &&
            windowCond cut (rollbackRun s (Window.sinceCutoff cut)) r) = [] := by
        rw [List.filter_eq_nil_iff]
        intro r' h' hp
        rw [Bool.and_eq_true] at hp
        have hst : r'.status = "processed" := by simpa using hp.1
        have hwf := (rollbackRun_no_candidate_left s _ (Or.inr ⟨cut, rfl⟩) r' h'
          hst).1 cut rfl
        rw [hwf] at hp
        exact absurd hp.2 (by decide)
      show (List.insertionSort updDescLE ((rollbackRun s (Window.sinceCutoff cut)).filter
          (fun r => r.status == "processed" &&
            windowCond cut (rollbackRun s (Window.sinceCutoff cut)) r))).map
          (toCandidate _ none) = []
      rw [hfil]; rfl
  refine ⟨hfe, ?_⟩
  show execute_rollback (rollbackRun s w)
    (find_items_to_rollback (rollbackRun s w) w) = _
  rw [hfe]
  rfl

/-- Witness for C8 at a concrete input: rolling the two-processed-item store
back under `--all` is idempotent. -/
theorem C8_rollback_idempotent_witness :
    find_items_to_rollback (rollbackRun storeTwoProc Window.allItems)
        Window.allItems = [] ∧
      rollbackRun (rollbackRun storeTwoProc Window.allItems) Window.allItems =
        rollbackRun storeTwoProc Window.allItems :=
  C8_rollback_idempotent storeTwoProc Window.allItems (Or.inl rfl)

/-! ## Validator lemmas -/

/-- One validator step extends the previous state: the error flag is never
cleared and diagnostics are only appended. -/
def VExt (st st' : VSt) : Prop :=
  (st.hasErrors = true → st'.hasErrors = true) ∧ ∃ t, st'.diags = st.diags ++ t

theorem VExt.rfl (st : VSt) : VExt st st := ⟨id, [], by simp⟩

theorem VExt_trans {a b c : VSt} (h₁ : VExt a b) (h₂ : VExt b c) : VExt a c := by
  obtain ⟨f₁, t₁, e₁⟩ := h₁
  obtain ⟨f₂, t₂, e₂⟩ := h₂
  exact ⟨fun h => f₂ (f₁ h), t₁ ++ t₂, by rw [e₂, e₁, List.append_assoc]⟩

theorem VExt_if_err (P : Prop) [Decidable P] (st : VSt) (d : Diag) :
    VExt st (if P then { st with hasErrors := true, diags := st.diags ++ [d] } else st) := by
  split
  · exact ⟨fun _ => rfl, [d], rfl⟩
  · exact VExt.rfl _

theorem VExt_if_warn (P : Prop) [Decidable P] (st : VSt) (d : Diag) :
    VExt st (if P then { st with hasWarnings := true, diags := st.diags ++ [d] } else st) := by
  split
  · exact ⟨id, [d], rfl⟩
  · exact VExt.rfl _

theorem checkInsert_mono (snap : List SnapItem) (st st' : VSt) (a : Action) (p : Nat)
    (h : checkInsert snap st a p = .ok st') : VExt st st' := by
  unfold checkInsert at h
  split at h
  · cases h
  · split at h
    · cases h
    · split at h
      · cases h; exact VExt.rfl _
      · split at h
        · cases h; exact ⟨fun _ => rfl, [Diag.degenerateSplit p], rfl⟩
        · cases h
          exact VExt_trans (VExt_if_err _ st _)
            (VExt_trans (VExt_if_err _ _ _) (VExt_if_warn _ _ _))

theorem checkUpdate_mono (snap : List SnapItem) (st st' : VSt) (a : Action) (q : ℚ)
    (h : checkUpdate snap st a q = .ok st') : VExt st st' := by
  unfold checkUpdate at h
  split at h
  · cases h
  · split at h
    · cases h; exact VExt.rfl _
    · split at h
      · cases h; exact ⟨id, [Diag.updateIncrease _], rfl⟩
      · split at h
        · cases h
        · split at h
          · cases h; exact ⟨id, [Diag.consumedNegative _], rfl⟩
          · cases h; exact VExt.rfl _

theorem checkAction_mono (snap : List SnapItem) (st st' : VSt) (a : Action)
    (h : checkAction snap st a = .ok st') : VExt st st' := by
  unfold checkAction at h
  split at h
  · cases h
  · rename_i st₁ hst₁
    have h₁ : VExt st st₁ := by
      split at hst₁
      · split at hst₁
        · exact checkInsert_mono snap st st₁ a _ hst₁
        · cases hst₁; exact VExt.rfl _
      · cases hst₁; exact VExt.rfl _
    have h₂ : VExt st₁ st' := by
      split at h
      · split at h
        · exact checkUpdate_mono snap st₁ st' a _ h
        · cases h; exact VExt.rfl _
      · cases h; exact VExt.rfl _
    exact VExt_trans h₁ h₂

theorem checkAll_mono (snap : List SnapItem) (l : List Action) (st st' : VSt)
    (h : checkAll snap l st = .ok st') : VExt st st' := by
  induction l generalizing st with
  | nil => unfold checkAll at h; cases h; exact VExt.rfl _
  | cons a l ih =>
    unfold checkAll at h
    split at h
    · cases h
    · rename_i st₁ hst₁
      exact VExt_trans (checkAction_mono snap st st₁ a hst₁) (ih st₁ h)

theorem conservStep_mono (snap : List SnapItem) (st : VSt) (e : Nat × List ℚ) :
    VExt st (conservStep snap st e) := by
  unfold conservStep
  split
  · exact VExt.rfl _
  · exact VExt_if_err _ st _

theorem conservAll_mono (snap : List SnapItem) (m : List (Nat × List ℚ)) (st : VSt) :
    VExt st (conservAll snap m st) := by
  induction m generalizing st with
  | nil => exact VExt.rfl _
  | cons e m ih =>
    exact VExt_trans (conservStep_mono snap st e) (ih (conservStep snap st e))

/-- Inversion: splitting the first validator loop at a plan position. -/
theorem checkAll_ok_split (snap : List SnapItem) (l₁ l₂ : List Action) (a : Action)
    (st st' : VSt) (h : checkAll snap (l₁ ++ a :: l₂) st = .ok st') :
    ∃ st₁ st₂, checkAll snap l₁ st = .ok st₁ ∧ checkAction snap st₁ a = .ok st₂ ∧
      checkAll snap l₂ st₂ = .ok st' := by
  induction l₁ generalizing st with
  | nil =>
    rw [List.nil_append] at h
    unfold checkAll at h
    split at h
    · cases h
    · rename_i st₂ hst₂
      exact ⟨st, st₂, rfl, hst₂, h⟩
  | cons b l₁ ih =>
    rw [List.cons_append] at h
    unfold checkAll at h
    split at h
    · cases h
    · rename_i stb hstb
      obtain ⟨st₁, st₂, h₁, h₂, h₃⟩ := ih stb h
      refine ⟨st₁, st₂, ?_, h₂, h₃⟩
      unfold checkAll
      rw [hstb]
      exact h₁

/-- Inversion of a successful validation into its three phases. -/
theorem validate_ok_inv (snap : List SnapItem) (actions : List Action) (vst : VSt)
    (h : validate snap actions = .ok vst) :
    ∃ st m, checkAll snap actions initVSt = .ok st ∧ buildMap actions [] = .ok m ∧
      vst = conservAll snap m st := by
  unfold validate at h
  split at h
  · cases h
  · rename_i st hst
    split at h
    · cases h
    · rename_i m hm
      cases h
      exact ⟨st, m, hst, hm, rfl⟩

/-! ## Conservation-map lemmas -/

/-- The quantities of the child `INSERT`s referring to one parent id, in plan
order (exactly the quantities `parent_children_map` collects for that key
when none is missing). -/
def childQs (l : List Action) (p : Nat) : List ℚ :=
  l.filterMap (fun b =>
    if b.action = "INSERT" ∧ b.parent_id = some p then b.quantity else none)

/-- Lookup of a key in the association list. -/
def lookupA (m : List (Nat × List ℚ)) (p : Nat) : Option (List ℚ) :=
  (m.find? (fun e => e.1 == p)).map (fun e => e.2)

/-- Appending freshly collected quantities to an optional existing entry. -/
def mergeE : Option (List ℚ) → List ℚ → Option (List ℚ)
  | some qs₀, qs => some (qs₀ ++ qs)
  | none, [] => none
  | none, q :: qs => some (q :: qs)

theorem lookupA_cons (k : Nat) (qs : List ℚ) (m : List (Nat × List ℚ)) (p : Nat) :
    lookupA ((k, qs) :: m) p = if k = p then some qs else lookupA m p := by
  unfold lookupA
  by_cases h : k = p
  · rw [if_pos h, List.find?_cons_of_pos]
    · rfl
    · simp [h]
  · rw [if_neg h, List.find?_cons_of_neg]
    simp [h]

theorem lookupA_nil (p : Nat) : lookupA [] p = none := rfl

theorem addChild_lookup (m : List (Nat × List ℚ)) (k p : Nat) (q : ℚ) :
    lookupA (addChild m k q) p =
      if p = k then some ((lookupA m k).getD [] ++ [q]) else lookupA m p := by
  induction m with
  | nil =>
    show lookupA [(k, [q])] p = _
    rw [lookupA_cons]
    by_cases hpk : p = k
    · simp [hpk, lookupA_nil]
    · simp [hpk, Ne.symm hpk, lookupA_nil]
  | cons e m ih =>
    obtain ⟨k', qs⟩ := e
    show lookupA (if k' = k then (k', qs ++ [q]) :: m else (k', qs) :: addChild m k q) p = _
    by_cases hkk : k' = k
    · subst hkk
      rw [if_pos rfl, lookupA_cons]
      by_cases hpk : p = k'
      · subst hpk; simp [lookupA_cons]
      · simp [hpk, Ne.symm hpk, lookupA_cons]
    · rw [if_neg hkk, lookupA_cons]
      by_cases hpk : p = k
      · subst hpk
        have hk'p : k' ≠ p := hkk
        simp [hk'p, ih, lookupA_cons]
      · by_cases hk'p : k' = p
        · simp [hk'p, hpk, lookupA_cons]
        · simp [hk'p, hpk, ih, lookupA_cons]

theorem childQs_cons_skip (b : Action) (l : List Action) (p : Nat)
    (hb : ¬(b.action = "INSERT" ∧ b.parent_id = some p)) :
    childQs (b :: l) p = childQs l p := by
  unfold childQs
  rw [List.filterMap_cons]
  simp [hb]

theorem childQs_cons_hit (b : Action) (l : List Action) (p : Nat) (q : ℚ)
    (ha : b.action = "INSERT") (hp : b.parent_id = some p)
    (hq : b.quantity = some q) :
    childQs (b :: l) p = q :: childQs l p := by
  unfold childQs
  rw [List.filterMap_cons]
  simp [ha, hp, hq]

/-- What a successful map construction holds at each key: the prior entry
extended with the plan's child quantities for that key. -/
theorem buildMap_ok_lookup (l : List Action) :
    ∀ (m₀ m : List (Nat × List ℚ)) (p : Nat), buildMap l m₀ = .ok m →
      lookupA m p = mergeE (lookupA m₀ p) (childQs l p) := by
  induction l with
  | nil =>
    intro m₀ m p h
    unfold buildMap at h
    cases h
    show lookupA m₀ p = mergeE (lookupA m₀ p) (childQs [] p)
    have hq : childQs ([] : List Action) p = [] := rfl
    rw [hq]
    cases hl : lookupA m₀ p <;> simp [mergeE]
  | cons b l ih =>
    intro m₀ m p h
    unfold buildMap at h
    split at h
    · rename_i hact
      cases hpid : b.parent_id with
      | some p' =>
        rw [hpid] at h
        cases hq : b.quantity with
        | none => rw [hq] at h; cases h
        | some q =>
          rw [hq] at h
          have := ih (addChild m₀ p' q) m p h
          rw [this, addChild_lookup]
          by_cases hpp : p = p'
          · subst hpp
            rw [if_pos rfl, childQs_cons_hit b l p q hact hpid hq]
            cases hl : lookupA m₀ p <;> simp [mergeE, List.append_assoc]
          · rw [if_neg hpp, childQs_cons_skip]
            intro hcon
            rw [hpid] at hcon
            exact hpp (by injection hcon.2 with h2; exact h2.symm)
      | none =>
        rw [hpid] at h
        rw [ih m₀ m p h, childQs_cons_skip]
        intro hcon
        rw [hpid] at hcon
        cases hcon.2
    · rename_i hact
      rw [ih m₀ m p h, childQs_cons_skip]
      intro hcon
      exact hact hcon.1

theorem lookupA_mem (m : List (Nat × List ℚ)) (p : Nat) (qs : List ℚ)
    (h : lookupA m p = some qs) : (p, qs) ∈ m := by
  unfold lookupA at h
  cases hf : m.find? (fun e => e.1 == p) with
  | none => rw [hf] at h; cases h
  | some e =>
    rw [hf] at h
    obtain ⟨k, qs'⟩ := e
    have hpred : k = p := by simpa using List.find?_some hf
    have hmem := List.mem_of_find?_eq_some hf
    cases h
    rw [hpred] at hmem
    exact hmem

/-- The boolean contribution of one map entry to `has_errors`. -/
def conservFlag (snap : List SnapItem) (e : Nat × List ℚ) : Bool :=
  match findSnap snap e.1 with
  | none => false
  | some parent => decide (ratAbs (rsub (rsum e.2) parent.qty) > epsilon)

theorem conservStep_hasErrors (snap : List SnapItem) (st : VSt) (e : Nat × List ℚ) :
    (conservStep snap st e).hasErrors = (st.hasErrors || conservFlag snap e) := by
  unfold conservStep conservFlag
  split
  · simp
  · split
    · rename_i hgt
      simp [hgt]
    · rename_i hng
      simp [hng]

theorem conservAll_hasErrors (snap : List SnapItem) (m : List (Nat × List ℚ)) (st : VSt) :
    (conservAll snap m st).hasErrors = (st.hasErrors || m.any (conservFlag snap)) := by
  induction m generalizing st with
  | nil => simp [conservAll]
  | cons e m ih =>
    unfold conservAll
    rw [ih, conservStep_hasErrors]
    simp [Bool.or_assoc]

theorem mem_childQs (l : List Action) (a : Action) (p : Nat) (q : ℚ)
    (ha : a ∈ l) (hact : a.action = "INSERT") (hp : a.parent_id = some p)
    (hq : a.quantity = some q) : q ∈ childQs l p := by
  unfold childQs
  rw [List.mem_filterMap]
  exact ⟨a, ha, by simp [hact, hp, hq]⟩

/-! ## Per-action validator characterizations -/

/-- For an `INSERT` carrying a `parent_id` key, the per-action validator step
is exactly the child-insert check. -/
theorem checkAction_insert (snap : List SnapItem) (st : VSt) (a : Action) (p : Nat)
    (hact : a.action = "INSERT") (hpid : a.parent_id = some p) :
    checkAction snap st a = checkInsert snap st a p := by
  unfold checkAction
  rw [if_pos hact, hpid]
  dsimp only
  cases hci : checkInsert snap st a p with
  | error e => rfl
  | ok st₁ =>
    have : ¬ a.action = "UPDATE" := by rw [hact]; decide
    simp [this]

/-- A child `INSERT` of quantity at most epsilon against a snapshot parent is
flagged as a degenerate split. -/
theorem checkInsert_degenerate (snap : List SnapItem) (st : VSt) (a : Action)
    (p : Nat) (q : ℚ) (u : String) (parent : SnapItem)
    (hq : a.quantity = some q) (hu : a.unit = some u)
    (hfind : findSnap snap p = some parent) (hle : q ≤ epsilon) :
    checkInsert snap st a p =
      .ok { st with hasErrors := true, diags := st.diags ++ [Diag.degenerateSplit p] } := by
  unfold checkInsert
  rw [hq, hu, hfind]
  dsimp only
  rw [if_pos hle]

/-- If the child-insert check passes without raising and without setting the
error flag, a discrete-unit child's quantity is integral. -/
theorem checkInsert_discrete_integral (snap : List SnapItem) (st st' : VSt)
    (a : Action) (p : Nat) (u : String) (parent : SnapItem)
    (h : checkInsert snap st a p = .ok st')
    (hfind : findSnap snap p = some parent) (hu : a.unit = some u)
    (hcu : discreteUnits.contains u = true) (hne : st'.hasErrors = false) :
    ∃ q, a.quantity = some q ∧ q.den = 1 := by
  unfold checkInsert at h
  cases hq : a.quantity with
  | none => rw [hq] at h; cases h
  | some q =>
    rw [hq, hu, hfind] at h
    dsimp only at h
    refine ⟨q, rfl, ?_⟩
    by_cases hle : q ≤ epsilon
    · rw [if_pos hle] at h
      cases h
      simp at hne
    · rw [if_neg hle] at h
      cases h
      by_contra hden
      split at hne <;> split at hne <;> simp_all

/-! ## C1 -/

/-- C1: if the child `INSERT`s sharing a parent id (with the parent present in
the snapshot) sum to a quantity deviating from the parent's recorded quantity
by more than epsilon = 0.01, then the run aborts before any action executes —
the store is returned unchanged and the outcome is a rejection (or, for a plan
that is additionally malformed enough to raise, an exception), never a
commit. -/
theorem C1_conservation_violation_aborts (actions : List Action)
    (snap : List SnapItem) (s : Store) (now : Nat) (a : Action) (p : Nat)
    (parent : SnapItem) (hmem : a ∈ actions) (hact : a.action = "INSERT")
    (hp : a.parent_id = some p) (hq : a.quantity.isSome)
    (hfind : findSnap snap p = some parent)
    (hdev : ratAbs (rsub (rsum (childQs actions p)) parent.qty) > epsilon) :
    (execute_actions actions snap s now).1 = s ∧
      ((execute_actions actions snap s now).2.2 = Outcome.rejected ∨
        (execute_actions actions snap s now).2.2 = Outcome.validationException) := by
  have hsnap : snap ≠ [] := by
    intro he
    rw [he] at hfind
    exact absurd hfind (by simp [findSnap])
  unfold execute_actions
  rw [if_pos hsnap]
  cases hv : validate snap actions with
  | error e => exact ⟨rfl, Or.inr rfl⟩
  | ok vst =>
    obtain ⟨st, m, hst, hm, hveq⟩ := validate_ok_inv snap actions vst hv
    have hflag : vst.hasErrors = true := by
      rw [hveq, conservAll_hasErrors, Bool.or_eq_true]
      refine Or.inr (List.any_eq_true.mpr ?_)
      have hlk : lookupA m p = mergeE (lookupA [] p) (childQs actions p) :=
        buildMap_ok_lookup actions [] m p hm
      obtain ⟨q, hqe⟩ := Option.isSome_iff_exists.mp hq
      have hne : childQs actions p ≠ [] :=
        List.ne_nil_of_mem (mem_childQs actions a p q hmem hact hp hqe)
      have hsome : lookupA m p = some (childQs actions p) := by
        rw [hlk, lookupA_nil]
        cases hcq : childQs actions p with
        | nil => exact absurd hcq hne
        | cons q₀ qs => rfl
      refine ⟨(p, childQs actions p), lookupA_mem m p _ hsome, ?_⟩
      unfold conservFlag
      rw [hfind]
      simpa using hdev
    dsimp only
    rw [hflag]
    simp

/-- The 700 + 400 split of the 1000 g item: a conservation violation. -/
def planSplitBad : List Action :=
  [{ action := "MARK_PROCESSED", id := some 1 },
   { action := "INSERT", item_name := some "milk", quantity := some 700,
     unit := some "g", parent_id := some 1, status := some "in_stock" },
   { action := "INSERT", item_name := some "milk", quantity := some 400,
     unit := some "g", parent_id := some 1, status := some "consumed" }]

/-- Witness for C1: the 700+400-vs-1000 plan of the spec's Rejection property
is rejected and mutates nothing. -/
theorem C1_conservation_violation_aborts_witness :
    (execute_actions planSplitBad snapMilk [rowMilk] 99).1 = [rowMilk] ∧
      ((execute_actions planSplitBad snapMilk [rowMilk] 99).2.2 = Outcome.rejected ∨
        (execute_actions planSplitBad snapMilk [rowMilk] 99).2.2 = Outcome.validationException) :=
  C1_conservation_violation_aborts planSplitBad snapMilk [rowMilk] 99
    { action := "INSERT", item_name := some "milk", quantity := some 700,
      unit := some "g", parent_id := some 1, status := some "in_stock" } 1
    (rowToSnap rowMilk) (by decide) (by decide) (by decide) (by decide)
    (by decide) (by decide)

/-! ## C6 -/

/-- C6: a plan containing a child `INSERT` (with its parent present in the
snapshot) whose quantity is at most epsilon = 0.01 is rejected as a
degenerate split: validation flags an error carrying the `degenerateSplit`
diagnostic (whose console text suggests using `CONSUME_LOG` instead) — or,
when the plan is additionally malformed enough to raise first, aborts by
exception — and in every case the store is unchanged and nothing commits. -/
theorem C6_degenerate_split_rejected (actions : List Action) (snap : List SnapItem)
    (s : Store) (now : Nat) (a : Action) (p : Nat) (q : ℚ) (parent : SnapItem)
    (hmem : a ∈ actions) (hact : a.action = "INSERT") (hp : a.parent_id = some p)
    (hfind : findSnap snap p = some parent) (hq : a.quantity = some q)
    (hle : q ≤ epsilon) :
    ((execute_actions actions snap s now).1 = s ∧
      (execute_actions actions snap s now).2.2 ≠ Outcome.committed) ∧
      ((∃ e, validate snap actions = .error e) ∨
        ∃ vst, validate snap actions = .ok vst ∧ vst.hasErrors = true ∧
          Diag.degenerateSplit p ∈ vst.diags) := by
  have hsnap : snap ≠ [] := by
    intro he; rw [he] at hfind; exact absurd hfind (by simp [findSnap])
  cases hv : validate snap actions with
  | error e =>
    refine ⟨?_, Or.inl ⟨e, rfl⟩⟩
    unfold execute_actions
    rw [if_pos hsnap, hv]
    dsimp only
    exact ⟨rfl, by decide⟩
  | ok vst =>
    obtain ⟨st, m, hst, hm, hveq⟩ := validate_ok_inv snap actions vst hv
    obtain ⟨l₁, l₂, rfl⟩ := List.append_of_mem hmem
    obtain ⟨st₁, st₂, h₁, h₂, h₃⟩ := checkAll_ok_split snap l₁ l₂ a initVSt st hst
    rw [checkAction_insert snap st₁ a p hact hp] at h₂
    cases hu : a.unit with
    | none =>
      exfalso
      unfold checkInsert at h₂
      rw [hq, hu] at h₂
      dsimp only at h₂
      cases h₂
    | some u =>
      rw [checkInsert_degenerate snap st₁ a p q u parent hq hu hfind hle] at h₂
      have hst₂ : st₂ = { st₁ with hasErrors := true, diags := st₁.diags ++ [Diag.degenerateSplit p] } := by
        cases h₂; rfl
      have hcomb : VExt st₂ vst :=
        VExt_trans (checkAll_mono snap l₂ st₂ st h₃)
          (by rw [hveq]; exact conservAll_mono snap m st)
      obtain ⟨hf, t, hd⟩ := hcomb
      have herr : vst.hasErrors = true := hf (by rw [hst₂])
      have hdiag : Diag.degenerateSplit p ∈ vst.diags := by
        rw [hd, hst₂]
        simp
      refine ⟨?_, Or.inr ⟨vst, rfl, herr, hdiag⟩⟩
      unfold execute_actions
      rw [if_pos hsnap, hv]
      dsimp only
      rw [herr]
      simp

/-- The degenerate-split plan of the spec's testable property: a child of
0.005 against a parent of 500. -/
def rowRice : Row := mkRow 4 "rice" 500 "g" "in_stock" none (some 80) 14 14

def snapRice : List SnapItem := fetch_current_inventory [rowRice]

def planDegenerate : List Action :=
  [{ action := "INSERT", item_name := some "rice", quantity := some (mkRat 5 1000),
     unit := some "g", parent_id := some 4, status := some "consumed" }]

/-- Witness for C6: the 0.005-against-500 plan is rejected with the
degenerate-split diagnostic and mutates nothing. -/
theorem C6_degenerate_split_rejected_witness :
    (((execute_actions planDegenerate snapRice [rowRice] 99).1 = [rowRice] ∧
      (execute_actions planDegenerate snapRice [rowRice] 99).2.2 ≠ Outcome.committed) ∧
      ((∃ e, validate snapRice planDegenerate = .error e) ∨
        ∃ vst, validate snapRice planDegenerate = .ok vst ∧ vst.hasErrors = true ∧
          Diag.degenerateSplit 4 ∈ vst.diags)) :=
  C6_degenerate_split_rejected planDegenerate snapRice [rowRice] 99
    { action := "INSERT", item_name := some "rice", quantity := some (mkRat 5 1000),
      unit := some "g", parent_id := some 4, status := some "consumed" } 4
    (mkRat 5 1000) (rowToSnap rowRice) (by decide) (by decide) (by decide)
    (by decide) (by decide) (by decide)

/-! ## C7 -/

def planNegUpdate : List Action :=
  [{ action := "UPDATE", id := some 1, quantity := some (-1) }]

/-- Counterexample to C7 as stated: validation is not exception-free.  On an
UPDATE carrying a negative quantity for a snapshot item it raises
`ValueError` (modelled by `Except.error`) instead of returning a verdict. -/
theorem C7_counterexample :
    validate snapMilk planNegUpdate = .error "ValueError: negative quantity" := by
  rfl

/-- C7 amended: validation always terminates, but it is not exception-total:
a negative quantity in an UPDATE raises ValueError, and missing required
fields (quantity or unit on a child INSERT, id on an UPDATE carrying a
quantity) raise KeyError.  Whenever validation raises, execution is aborted
before any action runs and the store is unchanged. -/
theorem C7_validation_exception_aborts (actions : List Action)
    (snap : List SnapItem) (s : Store) (now : Nat) (e : String)
    (hsnap : snap ≠ []) (hval : validate snap actions = .error e) :
    execute_actions actions snap s now = (s, [], Outcome.validationException) := by
  unfold execute_actions
  rw [if_pos hsnap, hval]

/-- Witness for C7 amended at the raising input. -/
theorem C7_validation_exception_aborts_witness :
    execute_actions planNegUpdate snapMilk [rowMilk] 7 =
      ([rowMilk], [], Outcome.validationException) :=
  C7_validation_exception_aborts planNegUpdate snapMilk [rowMilk] 7
    "ValueError: negative quantity" (by decide) (by rfl)

/-! ## C9 -/

def planRootFraction : List Action :=
  [{ action := "INSERT", item_name := some "egg", location := some "fridge",
     quantity := some (mkRat 5 2), unit := some "个", expiry_date := some 77 }]

/-- Counterexample to C9 as stated: a parentless `INSERT` is not subject to
the discrete-unit check.  The plan inserting 5/2 of the discrete unit 个 is
accepted without errors or warnings, commits, and leaves a row with a
discrete unit and a non-integral quantity in the store. -/
theorem C9_counterexample :
    validate snapMilk planRootFraction = .ok ⟨false, false, []⟩ ∧
      (execute_actions planRootFraction snapMilk [rowMilk] 99).2.2 = Outcome.committed ∧
      ((execute_actions planRootFraction snapMilk [rowMilk] 99).1.any
        (fun r => discreteUnits.contains r.unit && !(r.quantity.den == 1))) = true := by
  refine ⟨by rfl, by decide, by decide⟩

/-- C9 amended: the discreteness invariant is enforced only for child
`INSERT`s whose parent id resolves in the snapshot: in any plan that
validation accepts, every such INSERT with a discrete unit carries an
integral quantity.  Parentless INSERTs and child INSERTs with an unmatched
parent are not checked (see the counterexample). -/
theorem C9_discrete_child_integral (actions : List Action) (snap : List SnapItem)
    (vst : VSt) (a : Action) (p : Nat) (parent : SnapItem) (u : String)
    (hval : validate snap actions = .ok vst) (hne : vst.hasErrors = false)
    (hmem : a ∈ actions) (hact : a.action = "INSERT") (hp : a.parent_id = some p)
    (hfind : findSnap snap p = some parent) (hu : a.unit = some u)
    (hcu : discreteUnits.contains u = true) :
    ∃ q, a.quantity = some q ∧ q.den = 1 := by
  obtain ⟨st, m, hst, hm, hveq⟩ := validate_ok_inv snap actions vst hval
  obtain ⟨l₁, l₂, rfl⟩ := List.append_of_mem hmem
  obtain ⟨st₁, st₂, h₁, h₂, h₃⟩ := checkAll_ok_split snap l₁ l₂ a initVSt st hst
  rw [checkAction_insert snap st₁ a p hact hp] at h₂
  have hcomb : VExt st₂ vst :=
    VExt_trans (checkAll_mono snap l₂ st₂ st h₃)
      (by rw [hveq]; exact conservAll_mono snap m st)
  have hne₂ : st₂.hasErrors = false := by
    cases hb : st₂.hasErrors
    · rfl
    · have hcon := hcomb.1 hb
      rw [hne] at hcon
      exact absurd hcon (by decide)
  exact checkInsert_discrete_integral snap st₁ st₂ a p u parent h₂ hfind hu hcu hne₂

/-- A five-egg item and its well-formed 3 + 2 split. -/
def rowEggs : Row := mkRow 3 "eggs" 5 "个" "in_stock" none (some 60) 12 12

def snapEggs : List SnapItem := fetch_current_inventory [rowEggs]

def eggChildInsert : Action :=
  { action := "INSERT", item_name := some "eggs", quantity := some 3,
    unit := some "个", parent_id := some 3, status := some "in_stock" }

def planEggSplit : List Action :=
  [{ action := "MARK_PROCESSED", id := some 3 },
   eggChildInsert,
   { action := "INSERT", item_name := some "eggs", quantity := some 2,
     unit := some "个", parent_id := some 3, status := some "consumed" }]

/-- Witness for C9 amended: the accepted egg split's checked child insert
carries the integral quantity 3. -/
theorem C9_discrete_child_integral_witness :
    ∃ q, eggChildInsert.quantity = some q ∧ q.den = 1 :=
  C9_discrete_child_integral planEggSplit snapEggs ⟨false, false, []⟩
    eggChildInsert 3 (rowToSnap rowEggs) "个" (by rfl) rfl
    (by decide) (by decide) (by decide) (by decide) (by decide) (by decide)

/-! ## Executor frame lemmas (C5) -/

/-- Row frame relation: equal on every field except `location`, `status`,
`expiry_date` and `updated_at` — the only columns the non-INSERT actions may
write. -/
def frameEq (r' r : Row) : Prop :=
  r'.id = r.id ∧ r'.quantity = r.quantity ∧ r'.item_name = r.item_name ∧
    r'.unit = r.unit ∧ r'.category = r.category ∧ r'.parent_id = r.parent_id ∧
    r'.created_at = r.created_at

theorem frameEq.refl (r : Row) : frameEq r r := ⟨rfl, rfl, rfl, rfl, rfl, rfl, rfl⟩

theorem frameEq_trans {a b c : Row} (h₁ : frameEq a b) (h₂ : frameEq b c) :
    frameEq a c := by
  obtain ⟨x1, x2, x3, x4, x5, x6, x7⟩ := h₁
  obtain ⟨y1, y2, y3, y4, y5, y6, y7⟩ := h₂
  exact ⟨x1.trans y1, x2.trans y2, x3.trans y3, x4.trans y4, x5.trans y5,
    x6.trans y6, x7.trans y7⟩

theorem frame_of_map (s : List Row) (f : Row → Row) (hf : ∀ r, frameEq (f r) r) :
    ∀ r' ∈ s.map f, ∃ r ∈ s, frameEq r' r := by
  intro r' hr'
  rw [List.mem_map] at hr'
  obtain ⟨r, hr, he⟩ := hr'
  exact ⟨r, hr, he ▸ hf r⟩

theorem updRow_frame (a : Action) (now : Nat) (i : Nat) (r : Row) :
    frameEq (updRow a now i r) r := by
  unfold updRow
  split <;> simp [frameEq]

theorem applyUpdate_frame (now : Nat) (s s' : Store) (ws ws' : List Diag)
    (a : Action) (h : applyUpdate now s ws a = .ok (s', ws')) :
    ∀ r' ∈ s', ∃ r ∈ s, frameEq r' r := by
  unfold applyUpdate at h
  split at h
  · cases h
  · split at h
    · split at h
      · cases h
      · split at h
        · cases h
        · cases h
          exact frame_of_map s _ (updRow_frame a now _)
    · split at h
      · cases h
      · cases h
        intro r' hr'
        exact ⟨r', hr', frameEq.refl r'⟩

theorem applyMark_frame (stv : String) (now : Nat) (s : Store) (a : Action) :
    ∀ r' ∈ applyMark stv now s a, ∃ r ∈ s, frameEq r' r := by
  unfold applyMark
  split
  · refine frame_of_map s _ ?_
    intro r
    split <;> simp [frameEq]
  · intro r' hr'
    exact ⟨r', hr', frameEq.refl r'⟩

theorem applyAction_frame (snap : List SnapItem) (now : Nat) (s s' : Store)
    (ws ws' : List Diag) (a : Action)
    (hk : a.action = "UPDATE" ∨ a.action = "MARK_PROCESSED" ∨
      a.action = "MARK_WASTE" ∨ a.action = "CONSUME_LOG")
    (h : applyAction snap now (s, ws) a = .ok (s', ws')) :
    ∀ r' ∈ s', ∃ r ∈ s, frameEq r' r := by
  unfold applyAction at h
  rcases hk with hk | hk | hk | hk
  · rw [if_pos hk] at h
    exact applyUpdate_frame now s s' ws ws' a h
  all_goals
    rw [if_neg (by rw [hk]; decide), if_neg (by rw [hk]; decide)] at h
  · rw [if_pos hk] at h
    cases h
    exact applyMark_frame "processed" now s a
  · rw [if_neg (by rw [hk]; decide), if_pos hk] at h
    cases h
    exact applyMark_frame "waste" now s a
  · rw [if_neg (by rw [hk]; decide), if_neg (by rw [hk]; decide), if_pos hk] at h
    cases h
    exact applyMark_frame "consumed" now s a

theorem applyAll_frame (snap : List SnapItem) (now : Nat) (actions : List Action)
    (hk : ∀ a ∈ actions, a.action = "UPDATE" ∨ a.action = "MARK_PROCESSED" ∨
      a.action = "MARK_WASTE" ∨ a.action = "CONSUME_LOG") :
    ∀ (s : Store) (ws : List Diag) (s' : Store) (ws' : List Diag),
      applyAll snap now actions (s, ws) = .ok (s', ws') →
      ∀ r' ∈ s', ∃ r ∈ s, frameEq r' r := by
  induction actions with
  | nil =>
    intro s ws s' ws' h r' hr'
    cases h
    exact ⟨r', hr', frameEq.refl r'⟩
  | cons a l ih =>
    intro s ws s' ws' h r' hr'
    unfold applyAll at h
    split at h
    · cases h
    · rename_i st₁ h₁
      obtain ⟨s₁, ws₁⟩ := st₁
      obtain ⟨r₁, hr₁, hf₁⟩ :=
        ih (fun b hb => hk b (List.mem_cons_of_mem a hb)) s₁ ws₁ s' ws' h r' hr'
      obtain ⟨r, hr, hf⟩ := applyAction_frame snap now s s₁ ws ws₁ a
        (hk a (List.mem_cons_self a l)) h₁ r₁ hr₁
      exact ⟨r, hr, frameEq_trans hf₁ hf⟩

theorem applyAction_ws_mono (snap : List SnapItem) (now : Nat) (s s' : Store)
    (ws ws' : List Diag) (a : Action)
    (h : applyAction snap now (s, ws) a = .ok (s', ws')) :
    ∃ t, ws' = ws ++ t := by
  unfold applyAction at h
  split at h
  · unfold applyUpdate at h
    split at h
    · cases h
    · rename_i ws₁ hws₁
      have hpre : ∃ t, ws₁ = ws ++ t := by
        split at hws₁
        · cases hws₁; exact ⟨[_], rfl⟩
        · cases hws₁
        · cases hws₁; exact ⟨[], by simp⟩
      obtain ⟨t, rfl⟩ := hpre
      split at h
      · split at h
        · cases h
        · split at h
          · cases h
          · cases h; exact ⟨t, rfl⟩
      · split at h
        · cases h
        · rename_i i hi
          cases h
          exact ⟨t ++ [Diag.updateNoFields i], by simp⟩
  · split at h
    · cases hins : (match a.parent_id with
        | some p => if p ≠ 0 then applyInsertChild snap now s a p
                    else applyInsertRoot now s a
        | none => applyInsertRoot now s a) with
      | ok s₂ => rw [hins] at h; cases h; exact ⟨[], by simp⟩
      | error e => rw [hins] at h; cases h
    · split at h
      · cases h; exact ⟨[], by simp⟩
      · split at h
        · cases h; exact ⟨[], by simp⟩
        · split at h
          · cases h; exact ⟨[], by simp⟩
          · cases h; exact ⟨[], by simp⟩

theorem applyAll_ws_mono (snap : List SnapItem) (now : Nat) (actions : List Action) :
    ∀ (s : Store) (ws : List Diag) (s' : Store) (ws' : List Diag),
      applyAll snap now actions (s, ws) = .ok (s', ws') → ∃ t, ws' = ws ++ t := by
  induction actions with
  | nil => intro s ws s' ws' h; cases h; exact ⟨[], by simp⟩
  | cons a l ih =>
    intro s ws s' ws' h
    unfold applyAll at h
    split at h
    · cases h
    · rename_i st₁ h₁
      obtain ⟨s₁, ws₁⟩ := st₁
      obtain ⟨t₁, rfl⟩ := applyAction_ws_mono snap now s s₁ ws ws₁ a h₁
      obtain ⟨t₂, rfl⟩ := ih s₁ (ws ++ t₁) s' ws' h
      exact ⟨t₁ ++ t₂, by simp⟩

theorem applyAll_ok_split (snap : List SnapItem) (now : Nat)
    (l₁ l₂ : List Action) (a : Action) :
    ∀ (st st' : Store × List Diag),
      applyAll snap now (l₁ ++ a :: l₂) st = .ok st' →
      ∃ st₁ st₂, applyAll snap now l₁ st = .ok st₁ ∧
        applyAction snap now st₁ a = .ok st₂ ∧ applyAll snap now l₂ st₂ = .ok st' := by
  induction l₁ with
  | nil =>
    intro st st' h
    rw [List.nil_append] at h
    unfold applyAll at h
    split at h
    · cases h
    · rename_i st₂ h₂
      exact ⟨st, st₂, rfl, h₂, h⟩
  | cons b l₁ ih =>
    intro st st' h
    rw [List.cons_append] at h
    unfold applyAll at h
    split at h
    · cases h
    · rename_i stb hb
      obtain ⟨st₁, st₂, h₁, h₂, h₃⟩ := ih stb st' h
      refine ⟨st₁, st₂, ?_, h₂, h₃⟩
      unfold applyAll
      rw [hb]
      exact h₁

theorem applyUpdate_qty_warn (now : Nat) (s s' : Store) (ws ws' : List Diag)
    (a : Action) (hq : a.quantity.isSome)
    (h : applyUpdate now s ws a = .ok (s', ws')) :
    ∃ i, a.id = some i ∧ Diag.updateQuantityDropped i ∈ ws' := by
  unfold applyUpdate at h
  split at h
  · cases h
  · rename_i ws₁ hws₁
    obtain ⟨qv, hqv⟩ := Option.isSome_iff_exists.mp hq
    rw [hqv] at hws₁
    cases hid : a.id with
    | none => rw [hid] at hws₁; cases hws₁
    | some i =>
      rw [hid] at hws₁
      cases hws₁
      refine ⟨i, rfl, ?_⟩
      split at h
      · split at h
        · cases h
        · split at h
          · cases h
          · cases h; simp
      · split at h
        · cases h
        · cases h; simp

/-! ## C5 -/

/-- C5: for a plan consisting only of `UPDATE`, `MARK_PROCESSED`,
`MARK_WASTE` and `CONSUME_LOG` actions, every row of the resulting store is
an original row with its quantity (and id, name, unit, category, parent and
creation time) unchanged — these actions write only `location`, `status`,
`expiry_date` and `updated_at`, and a `quantity` field present in an `UPDATE`
is dropped rather than applied, leaving the warning diagnostic whenever the
plan commits. -/
theorem C5_quantity_immutable (actions : List Action) (snap : List SnapItem)
    (s : Store) (now : Nat)
    (hk : ∀ a ∈ actions, a.action = "UPDATE" ∨ a.action = "MARK_PROCESSED" ∨
      a.action = "MARK_WASTE" ∨ a.action = "CONSUME_LOG") :
    (∀ r' ∈ (execute_actions actions snap s now).1, ∃ r ∈ s, frameEq r' r) ∧
      (∀ a ∈ actions, a.action = "UPDATE" → a.quantity.isSome →
        (execute_actions actions snap s now).2.2 = Outcome.committed →
        ∃ i, a.id = some i ∧
          Diag.updateQuantityDropped i ∈ (execute_actions actions snap s now).2.1) := by
  constructor
  · intro r' hr'
    by_cases hco : (execute_actions actions snap s now).2.2 = Outcome.committed
    · have happ := (execute_actions_atomic actions snap s now).1 hco
      exact applyAll_frame snap now actions hk s []
        (execute_actions actions snap s now).1
        (execute_actions actions snap s now).2.1 happ r' hr'
    · have heq := (execute_actions_atomic actions snap s now).2 hco
      rw [heq] at hr'
      exact ⟨r', hr', frameEq.refl r'⟩
  · intro a hmem hupd hqty hco
    have happ := (execute_actions_atomic actions snap s now).1 hco
    obtain ⟨l₁, l₂, rfl⟩ := List.append_of_mem hmem
    obtain ⟨st₁, st₂, h₁, h₂, h₃⟩ :=
      applyAll_ok_split snap now l₁ l₂ a (s, []) _ happ
    obtain ⟨s₁, ws₁⟩ := st₁
    obtain ⟨s₂, ws₂⟩ := st₂
    have h₂' : applyUpdate now s₁ ws₁ a = .ok (s₂, ws₂) := by
      unfold applyAction at h₂
      rw [if_pos hupd] at h₂
      exact h₂
    obtain ⟨i, hid, hwmem⟩ := applyUpdate_qty_warn now s₁ s₂ ws₁ ws₂ a hqty h₂'
    obtain ⟨t, ht⟩ := applyAll_ws_mono snap now l₂ s₂ ws₂
      (execute_actions (l₁ ++ a :: l₂) snap s now).1
      (execute_actions (l₁ ++ a :: l₂) snap s now).2.1 h₃
    exact ⟨i, hid, by rw [ht]; exact List.mem_append_left t hwmem⟩

/-- Witness for C5 at a concrete input: an `UPDATE` carrying a quantity plus
a `CONSUME_LOG` against the one-item store — quantities survive and the
dropped-quantity warning is recorded. -/
def planFrame : List Action :=
  [{ action := "UPDATE", id := some 1, location := some "freezer",
     quantity := some 900 },
   { action := "CONSUME_LOG", id := some 1 }]

theorem C5_quantity_immutable_witness :
    (∀ r' ∈ (execute_actions planFrame snapMilk [rowMilk] 99).1,
      ∃ r ∈ [rowMilk], frameEq r' r) ∧
      (∀ a ∈ planFrame, a.action = "UPDATE" → a.quantity.isSome →
        (execute_actions planFrame snapMilk [rowMilk] 99).2.2 = Outcome.committed →
        ∃ i, a.id = some i ∧
          Diag.updateQuantityDropped i ∈ (execute_actions planFrame snapMilk [rowMilk] 99).2.1) :=
  C5_quantity_immutable planFrame snapMilk [rowMilk] 99 (by decide)

/-! ## C10 lemmas -/

theorem checkAll_cons (snap : List SnapItem) (a : Action) (l : List Action)
    (st : VSt) :
    checkAll snap (a :: l) st =
      match checkAction snap st a with
      | Except.error e => Except.error e
      | Except.ok st₁ => checkAll snap l st₁ := rfl

theorem checkAll_append (snap : List SnapItem) (l₁ l₂ : List Action) :
    ∀ st, checkAll snap (l₁ ++ l₂) st =
      match checkAll snap l₁ st with
      | Except.error e => Except.error e
      | Except.ok st₁ => checkAll snap l₂ st₁ := by
  induction l₁ with
  | nil => intro st; rfl
  | cons a l₁ ih =>
    intro st
    rw [List.cons_append, checkAll_cons, checkAll_cons]
    cases h : checkAction snap st a with
    | error e => rfl
    | ok st' => exact ih st'

/-- The per-action step of the first loop is the identity for a well-formed
child `INSERT` whose parent id is not in the snapshot. -/
theorem checkAction_skip (snap : List SnapItem) (st : VSt) (a : Action)
    (p : Nat) (q : ℚ) (u : String) (hact : a.action = "INSERT")
    (hp : a.parent_id = some p) (hfind : findSnap snap p = none)
    (hq : a.quantity = some q) (hu : a.unit = some u) :
    checkAction snap st a = .ok st := by
  rw [checkAction_insert snap st a p hact hp]
  unfold checkInsert
  rw [hq, hu, hfind]

/-- Dropping one key from the association map (an analytic device for the
skipped-key argument, not part of the source model). -/
def eraseKey (p : Nat) : List (Nat × List ℚ) → List (Nat × List ℚ)
  | [] => []
  | (k, qs) :: m => if k = p then eraseKey p m else (k, qs) :: eraseKey p m

theorem eraseKey_addChild_self (p : Nat) (q : ℚ) :
    ∀ m, eraseKey p (addChild m p q) = eraseKey p m := by
  intro m
  induction m with
  | nil => simp [addChild, eraseKey]
  | cons e m ih =>
    obtain ⟨k, qs⟩ := e
    show eraseKey p (if k = p then (k, qs ++ [q]) :: m
      else (k, qs) :: addChild m p q) = _
    by_cases hk : k = p
    · rw [if_pos hk]
      simp [eraseKey, hk]
    · rw [if_neg hk]
      simp [eraseKey, hk, ih]

theorem eraseKey_addChild_other (p k : Nat) (q : ℚ) (hkp : k ≠ p) :
    ∀ m, eraseKey p (addChild m k q) = addChild (eraseKey p m) k q := by
  intro m
  induction m with
  | nil => simp [addChild, eraseKey, hkp]
  | cons e m ih =>
    obtain ⟨k', qs⟩ := e
    show eraseKey p (if k' = k then (k', qs ++ [q]) :: m
      else (k', qs) :: addChild m k q) = addChild (eraseKey p ((k', qs) :: m)) k q
    by_cases h1 : k' = k
    · rw [if_pos h1]
      have h2 : k' ≠ p := by rw [h1]; exact hkp
      simp [eraseKey, h2, addChild, h1, hkp]
    · rw [if_neg h1]
      by_cases h2 : k' = p
      · simp [eraseKey, h2, ih]
      · simp [eraseKey, h2, addChild, h1, ih]

theorem buildMap_cons (b : Action) (l : List Action) (m : List (Nat × List ℚ)) :
    buildMap (b :: l) m =
      (if b.action = "INSERT" then
        match b.parent_id with
        | some p =>
          match b.quantity with
          | some q => buildMap l (addChild m p q)
          | none => Except.error "KeyError: quantity"
        | none => buildMap l m
      else buildMap l m) := rfl

theorem buildMap_append (l₁ l₂ : List Action) :
    ∀ m, buildMap (l₁ ++ l₂) m =
      match buildMap l₁ m with
      | Except.error e => Except.error e
      | Except.ok m₁ => buildMap l₂ m₁ := by
  induction l₁ with
  | nil => intro m; rfl
  | cons b l₁ ih =>
    intro m
    rw [List.cons_append, buildMap_cons, buildMap_cons]
    by_cases hact : b.action = "INSERT"
    · rw [if_pos hact, if_pos hact]
      cases hbp : b.parent_id with
      | some k =>
        cases hbq : b.quantity with
        | some q => exact ih (addChild m k q)
        | none => rfl
      | none => exact ih m
    · rw [if_neg hact, if_neg hact]
      exact ih m

theorem buildMap_erase_rel (p : Nat) (l : List Action) :
    ∀ m₁ m₂, eraseKey p m₁ = eraseKey p m₂ →
      (∃ e, buildMap l m₁ = .error e ∧ buildMap l m₂ = .error e) ∨
      (∃ o₁ o₂, buildMap l m₁ = .ok o₁ ∧ buildMap l m₂ = .ok o₂ ∧
        eraseKey p o₁ = eraseKey p o₂) := by
  induction l with
  | nil => intro m₁ m₂ he; exact Or.inr ⟨m₁, m₂, rfl, rfl, he⟩
  | cons b l ih =>
    intro m₁ m₂ he
    rw [buildMap_cons, buildMap_cons]
    by_cases hact : b.action = "INSERT"
    · rw [if_pos hact, if_pos hact]
      cases hbp : b.parent_id with
      | none => exact ih m₁ m₂ he
      | some k =>
        cases hbq : b.quantity with
        | none => exact Or.inl ⟨_, rfl, rfl⟩
        | some q =>
          by_cases hk : k = p
          · refine ih _ _ ?_
            rw [hk, eraseKey_addChild_self, eraseKey_addChild_self]
            exact he
          · refine ih _ _ ?_
            rw [eraseKey_addChild_other p k q hk, eraseKey_addChild_other p k q hk, he]
    · rw [if_neg hact, if_neg hact]
      exact ih m₁ m₂ he

theorem conservStep_skipKey (snap : List SnapItem) (st : VSt) (k : Nat)
    (qs : List ℚ) (hfind : findSnap snap k = none) :
    conservStep snap st (k, qs) = st := by
  unfold conservStep
  rw [hfind]

theorem conservAll_eraseKey (snap : List SnapItem) (p : Nat)
    (hfind : findSnap snap p = none) :
    ∀ (m : List (Nat × List ℚ)) (st : VSt),
      conservAll snap m st = conservAll snap (eraseKey p m) st := by
  intro m
  induction m with
  | nil => intro st; rfl
  | cons e m ih =>
    intro st
    obtain ⟨k, qs⟩ := e
    show conservAll snap m (conservStep snap st (k, qs)) =
      conservAll snap (if k = p then eraseKey p m else (k, qs) :: eraseKey p m) st
    by_cases hk : k = p
    · rw [if_pos hk]
      rw [conservStep_skipKey snap st k qs (by rw [hk]; exact hfind)]
      exact ih st
    · rw [if_neg hk]
      show _ = conservAll snap (eraseKey p m) (conservStep snap st (k, qs))
      exact ih (conservStep snap st (k, qs))

/-! ## C10 -/

/-- C10: a well-formed child `INSERT` whose `parent_id` matches no item of
the snapshot contributes nothing to validation: the complete validation
result — verdict flags and diagnostics, or raised exception — of the plan
equals that of the plan with the INSERT removed.  In particular the
degenerate-split, unit-mismatch, discrete-fraction, oversize-child and
conservation checks are all silently skipped for it, and the plan proceeds
to execution exactly as it would without those checks. -/
theorem C10_unmatched_parent_skips_checks (snap : List SnapItem)
    (l₁ l₂ : List Action) (a : Action) (p : Nat) (q : ℚ) (u : String)
    (hact : a.action = "INSERT") (hp : a.parent_id = some p)
    (hfind : findSnap snap p = none) (hq : a.quantity = some q)
    (hu : a.unit = some u) :
    validate snap (l₁ ++ a :: l₂) = validate snap (l₁ ++ l₂) := by
  have hA1 : checkAll snap (l₁ ++ a :: l₂) initVSt =
      checkAll snap (l₁ ++ l₂) initVSt := by
    rw [checkAll_append, checkAll_append]
    cases h₁ : checkAll snap l₁ initVSt with
    | error e => rfl
    | ok st₁ =>
      show checkAll snap (a :: l₂) st₁ = checkAll snap l₂ st₁
      rw [checkAll_cons, checkAction_skip snap st₁ a p q u hact hp hfind hq hu]
  have hstep : ∀ m', buildMap (a :: l₂) m' = buildMap l₂ (addChild m' p q) := by
    intro m'
    rw [buildMap_cons, if_pos hact, hp, hq]
  unfold validate
  rw [hA1]
  cases hA : checkAll snap (l₁ ++ l₂) initVSt with
  | error e => rfl
  | ok st =>
    rw [buildMap_append, buildMap_append]
    cases h₃ : buildMap l₁ [] with
    | error e => rfl
    | ok m' =>
      dsimp only
      rw [hstep m']
      rcases buildMap_erase_rel p l₂ (addChild m' p q) m'
          (eraseKey_addChild_self p q m') with ⟨e, he₁, he₂⟩ | ⟨o₁, o₂, ho₁, ho₂, hoe⟩
      · rw [he₁, he₂]
      · rw [ho₁, ho₂]
        dsimp only
        rw [conservAll_eraseKey snap p hfind o₁ st,
            conservAll_eraseKey snap p hfind o₂ st, hoe]

/-- An INSERT pointing at a parent id absent from the snapshot. -/
def ghostInsert : Action :=
  { action := "INSERT", item_name := some "ghost", quantity := some 7,
    unit := some "g", parent_id := some 99 }

/-- Witness for C10 at a concrete input: with the one-item snapshot (id 1),
an INSERT against the absent parent 99 leaves the validation result of the
rest of the plan untouched. -/
theorem C10_unmatched_parent_skips_checks_witness :
    validate snapMilk ([] ++ ghostInsert :: [{ action := "CONSUME_LOG", id := some 1 }]) =
      validate snapMilk ([] ++ [{ action := "CONSUME_LOG", id := some 1 }]) :=
  C10_unmatched_parent_skips_checks snapMilk []
    [{ action := "CONSUME_LOG", id := some 1 }] ghostInsert 99 7 "g"
    (by decide) (by decide) (by decide) (by decide) (by decide)

end Inv
